import Mathlib

/-!
Verification development for the concentrated-liquidity AMM core
(`programs/amm`): tick arrays, fee/reward growth accounting, the
tick-array bitmap, and the swap loop.

Machine integers are embedded as `Nat` (unsigned) and `Int` (signed) with
explicit modular / checked / saturating operations mirroring the Rust
source (`wrapping_sub`, `checked_sub(..).unwrap()`, `saturating_sub`).
Fallible code returns `Outcome`, which distinguishes the program's typed
errors (`fail`) from panics such as `unwrap` on `None` (`trap`).
-/

namespace Amm

/-- Modulus of the `u64` machine type. -/
def U64MOD : Nat := 2 ^ 64

/-- Modulus of the `u128` machine type. -/
def U128MOD : Nat := 2 ^ 128

/-- Q64.64 fixed-point unit (`fixed_point_64::Q64`). -/
def Q64 : Nat := 2 ^ 64

/-- Fee-rate denominator (`FEE_RATE_DENOMINATOR_VALUE = 10^6`). -/
def FEE_DENOM : Nat := 1000000

/-- Lowest valid tick (`tick_math::MIN_TICK`). -/
def MIN_TICK : Int := -443636

/-- Highest valid tick (`tick_math::MAX_TICK`). -/
def MAX_TICK : Int := 443636

/-- Number of ticks in a tick array (`TICK_ARRAY_SIZE = 60`). -/
def TICK_ARRAY_SIZE : Int := 60

/-- Unsigned wrapping subtraction on `u128` values (`a.wrapping_sub(b)`),
for arguments below `2^128`. -/
def wrappingSub (a b : Nat) : Nat :=
  if b ≤ a then a - b else a + U128MOD - b

/-- Checked subtraction (`a.checked_sub(b)`): `none` on underflow. -/
def checkedSub (a b : Nat) : Option Nat :=
  if b ≤ a then some (a - b) else none

/-- Program error codes (`error.rs` is not under `src/`; the names are the
spec's §7 taxonomy plus the generic anchor `require` violations). -/
inductive ErrCode where
  | invalidSwapAmountSpecified
  | notApproved
  | sqrtPriceLimitOverflow
  | invalidTickArray
  | invalidTickIndex
  | tickOverflow
  | liquidityOverflow
  | liquidityUnderflow
  | invalidInputPoolVault
  | tooSmallInputOrOutputAmount
  | tooLittleOutputReceived
  | tooMuchInputPaid
  | insufficientTickArrays
  | priceSlippageCheck
  | splTransferFailed
  | requireViolated
  | requireGtViolated
  | accountKeyMismatch
deriving DecidableEq, Repr

/-- Result of a fallible program fragment: a value, a typed program error
(`err!` / `require!`), or a trap (Rust panic, e.g. `unwrap` on `None`). -/
inductive Outcome (α : Type) where
  | ok (a : α)
  | fail (e : ErrCode)
  | trap
deriving Repr, DecidableEq

def Outcome.bind {α β : Type} : Outcome α → (α → Outcome β) → Outcome β
  | .ok a, f => f a
  | .fail e, _ => .fail e
  | .trap, _ => .trap

instance : Monad Outcome where
  pure := .ok
  bind := Outcome.bind

/-- Lift `Option` with `unwrap` semantics: `None` traps. -/
def unwrapO {α : Type} : Option α → Outcome α
  | some a => .ok a
  | none => .trap

/-- Anchor-style `require!(cond, err)`. -/
def req (b : Bool) (e : ErrCode) : Outcome Unit :=
  if b then .ok () else .fail e

/-- Convert a typed error into a panic: models calling `.unwrap()` on a
`Result` value. -/
def unwrapR {α : Type} : Outcome α → Outcome α
  | .ok a => .ok a
  | .fail _ => .trap
  | .trap => .trap

theorem Outcome.bind_ok_iff {α β : Type} (x : Outcome α) (f : α → Outcome β) (b : β) :
    Outcome.bind x f = .ok b ↔ ∃ a, x = .ok a ∧ f a = .ok b := by
  cases x with
  | ok a => simp [Outcome.bind]
  | fail e => simp [Outcome.bind]
  | trap => simp [Outcome.bind]

/-- Per-pool reward bookkeeping (`RewardInfo`).  `pool.rs` is not under
`src/`; fields follow the spec §3 / §9 state machine
(0 = Uninitialized, 1 = Initialized, 2 = Opened, 3 = Ended). -/
structure RewardInfo where
  rewardState : Nat
  openTime : Nat
  endTime : Nat
  lastUpdateTime : Nat
  emissionsPerSecondX64 : Nat
  rewardTotalEmissioned : Nat
  rewardGrowthGlobalX64 : Nat
deriving DecidableEq, Repr

/-- Modelled from the spec: `RewardInfo::initialized` (missing `pool.rs`)
holds once `initialize_reward` ran, i.e. the reward left the
`Uninitialized` state. -/
def RewardInfo.initialized (r : RewardInfo) : Bool :=
  r.rewardState ≠ 0

def RewardInfo.default : RewardInfo :=
  ⟨0, 0, 0, 0, 0, 0, 0⟩

/-- The fixed `REWARD_NUM = 3` array of rewards, unrolled. -/
structure Rewards where
  r0 : RewardInfo
  r1 : RewardInfo
  r2 : RewardInfo
deriving DecidableEq, Repr

def Rewards.default : Rewards :=
  ⟨RewardInfo.default, RewardInfo.default, RewardInfo.default⟩

/-- Per-tick state (`TickState`), with the `[u128; 3]` reward-outside
array unrolled into three fields. -/
structure TickState where
  tick : Int
  liquidityNet : Int
  liquidityGross : Nat
  feeGrowthOutside0X64 : Nat
  feeGrowthOutside1X64 : Nat
  rewardOutside0 : Nat
  rewardOutside1 : Nat
  rewardOutside2 : Nat
deriving DecidableEq, Repr

def TickState.default : TickState :=
  ⟨0, 0, 0, 0, 0, 0, 0, 0⟩

/-- `TickState::is_initialized`. -/
def TickState.isInitialized (t : TickState) : Bool :=
  t.liquidityGross ≠ 0

/-- One reward slot of `TickState::cross`: for an initialized reward the
new outside value is `global.checked_sub(outside).unwrap()` (trap on
underflow); an uninitialized reward is skipped. -/
def crossReward (r : RewardInfo) (outside : Nat) : Outcome Nat :=
  if r.initialized then unwrapO (checkedSub r.rewardGrowthGlobalX64 outside)
  else .ok outside

/-- `TickState::cross`: flips the fee / reward outside accumulators to
`global - outside` using checked subtraction (`unwrap`), leaves
`liquidity_net` and `liquidity_gross` untouched, and returns the stored
`liquidity_net`. -/
def TickState.cross (t : TickState) (feeGrowthGlobal0X64 feeGrowthGlobal1X64 : Nat)
    (rewards : Rewards) : Outcome (TickState × Int) := do
  let f0 ← unwrapO (checkedSub feeGrowthGlobal0X64 t.feeGrowthOutside0X64)
  let f1 ← unwrapO (checkedSub feeGrowthGlobal1X64 t.feeGrowthOutside1X64)
  let w0 ← crossReward rewards.r0 t.rewardOutside0
  let w1 ← crossReward rewards.r1 t.rewardOutside1
  let w2 ← crossReward rewards.r2 t.rewardOutside2
  .ok ({ t with
          feeGrowthOutside0X64 := f0
          feeGrowthOutside1X64 := f1
          rewardOutside0 := w0
          rewardOutside1 := w1
          rewardOutside2 := w2 }, t.liquidityNet)

/-- `get_fee_growth_inside`: fee growth below / above use branches with
`checked_sub(..).unwrap()` (trap on underflow); the final combination is
`wrapping_sub` on `u128`. -/
def getFeeGrowthInside (tickLower tickUpper : TickState) (tickCurrent : Int)
    (feeGrowthGlobal0X64 feeGrowthGlobal1X64 : Nat) : Outcome (Nat × Nat) := do
  let below ←
    if tickCurrent ≥ tickLower.tick then
      .ok (tickLower.feeGrowthOutside0X64, tickLower.feeGrowthOutside1X64)
    else do
      let b0 ← unwrapO (checkedSub feeGrowthGlobal0X64 tickLower.feeGrowthOutside0X64)
      let b1 ← unwrapO (checkedSub feeGrowthGlobal1X64 tickLower.feeGrowthOutside1X64)
      .ok (b0, b1)
  let above ←
    if tickCurrent < tickUpper.tick then
      .ok (tickUpper.feeGrowthOutside0X64, tickUpper.feeGrowthOutside1X64)
    else do
      let a0 ← unwrapO (checkedSub feeGrowthGlobal0X64 tickUpper.feeGrowthOutside0X64)
      let a1 ← unwrapO (checkedSub feeGrowthGlobal1X64 tickUpper.feeGrowthOutside1X64)
      .ok (a0, a1)
  .ok (wrappingSub (wrappingSub feeGrowthGlobal0X64 below.1) above.1,
       wrappingSub (wrappingSub feeGrowthGlobal1X64 below.2) above.2)

/-- One reward slot of `get_reward_growths_inside`: an uninitialized
reward keeps the initial `0`; otherwise below / above use
`checked_sub(..).unwrap()` and the final combination is wrapping. -/
def rewardGrowthInsideOne (r : RewardInfo) (lowerTick upperTick : Int)
    (lowerOutside upperOutside : Nat) (tickCurrent : Int) : Outcome Nat := do
  if r.initialized then do
    let below ←
      if tickCurrent ≥ lowerTick then .ok lowerOutside
      else unwrapO (checkedSub r.rewardGrowthGlobalX64 lowerOutside)
    let above ←
      if tickCurrent < upperTick then .ok upperOutside
      else unwrapO (checkedSub r.rewardGrowthGlobalX64 upperOutside)
    .ok (wrappingSub (wrappingSub r.rewardGrowthGlobalX64 below) above)
  else .ok 0

/-- `get_reward_growths_inside`, the `REWARD_NUM = 3` loop unrolled. -/
def getRewardGrowthsInside (tickLower tickUpper : TickState) (tickCurrent : Int)
    (rewards : Rewards) : Outcome (Nat × Nat × Nat) := do
  let g0 ← rewardGrowthInsideOne rewards.r0 tickLower.tick tickUpper.tick
    tickLower.rewardOutside0 tickUpper.rewardOutside0 tickCurrent
  let g1 ← rewardGrowthInsideOne rewards.r1 tickLower.tick tickUpper.tick
    tickLower.rewardOutside1 tickUpper.rewardOutside1 tickCurrent
  let g2 ← rewardGrowthInsideOne rewards.r2 tickLower.tick tickUpper.tick
    tickLower.rewardOutside2 tickUpper.rewardOutside2 tickCurrent
  .ok (g0, g1, g2)

/-- Modelled from the spec (§4.1, `full_math.rs` missing from `src/`):
`mul_div_floor(a, b, d) = ⌊a·b/d⌋` on `U128` with 256-bit intermediates;
`None` when the denominator is zero or the result exceeds `U128::MAX`. -/
def mulDivFloorU128 (a b d : Nat) : Option Nat :=
  if d = 0 then none
  else if a * b / d < U128MOD then some (a * b / d) else none

/-- Modelled from the spec (`big_num.rs` missing from `src/`):
`U128::as_u64` asserts the value fits in 64 bits and panics otherwise. -/
def asU64 (x : Nat) : Outcome Nat :=
  if x < U64MOD then .ok x else .trap

/-- Checked `u64` addition with `unwrap`: traps on overflow. -/
def checkedAddU64 (a b : Nat) : Outcome Nat :=
  if a + b < U64MOD then .ok (a + b) else .trap

/-- `calculate_latest_token_fees` (`increase_liquidity.rs`): the snapshot
difference is `saturating_sub` (clamped at zero), scaled by
`mul_div_floor(liquidity, Q64)` and added with checked `u64` addition. -/
def calculateLatestTokenFees (lastTotalFees feeGrowthInsideLastX64
    feeGrowthInsideLatestX64 liquidity : Nat) : Outcome Nat := do
  let d ← unwrapO (mulDivFloorU128
    (feeGrowthInsideLatestX64 - feeGrowthInsideLastX64) liquidity Q64)
  let d64 ← asU64 d
  checkedAddU64 lastTotalFees d64

/-- Personal position state (`PersonalPositionState`), reward slots
unrolled. -/
structure PersonalPosition where
  liquidity : Nat
  feeGrowthInside0LastX64 : Nat
  feeGrowthInside1LastX64 : Nat
  tokenFeesOwed0 : Nat
  tokenFeesOwed1 : Nat
  rewardGrowthInsideLast0 : Nat
  rewardGrowthInsideLast1 : Nat
  rewardGrowthInsideLast2 : Nat
  rewardAmountOwed0 : Nat
  rewardAmountOwed1 : Nat
  rewardAmountOwed2 : Nat
deriving DecidableEq, Repr

/-- Modelled from the spec (§4.7, `position.rs` missing from `src/`): one
reward slot of `PersonalPositionState::update_rewards`; the growth delta
is a wrapping snapshot difference scaled by liquidity over `2^64`,
accumulated into `reward_amount_owed` with checked `u64` addition. -/
def updateRewardOne (growthInsideLatest growthInsideLast liquidity amountOwed : Nat) :
    Outcome (Nat × Nat) := do
  let delta ← unwrapO (mulDivFloorU128
    (wrappingSub growthInsideLatest growthInsideLast) liquidity Q64)
  let d64 ← asU64 delta
  let owed ← checkedAddU64 amountOwed d64
  .ok (growthInsideLatest, owed)

/-- The personal-position settlement tail of `decrease_liquidity`
(lines 109-157): accumulate both owed-fee deltas with `saturating_sub`
snapshot differences, store the new snapshots, capture both owed totals
for the transfer amounts, then assign `token_fees_owed_0 = 0` (the source
writes this assignment twice) while `token_fees_owed_1` is left at its
accumulated value, update rewards, and reduce the position's liquidity.
Returns the new personal position and the two transfer amounts
`decrease_amount + captured_fees`. -/
def decreaseLiquiditySettle (p : PersonalPosition)
    (protocolFeeGrowthInside0X64 protocolFeeGrowthInside1X64 : Nat)
    (protocolRewardGrowthInside : Nat × Nat × Nat)
    (decreaseAmount0 decreaseAmount1 liquidityDelta : Nat) :
    Outcome (PersonalPosition × Nat × Nat) := do
  let owed0 ← calculateLatestTokenFees p.tokenFeesOwed0
    p.feeGrowthInside0LastX64 protocolFeeGrowthInside0X64 p.liquidity
  let owed1 ← calculateLatestTokenFees p.tokenFeesOwed1
    p.feeGrowthInside1LastX64 protocolFeeGrowthInside1X64 p.liquidity
  let latestFeesOwed0 := owed0
  let latestFeesOwed1 := owed1
  let (rl0, ro0) ← updateRewardOne protocolRewardGrowthInside.1
    p.rewardGrowthInsideLast0 p.liquidity p.rewardAmountOwed0
  let (rl1, ro1) ← updateRewardOne protocolRewardGrowthInside.2.1
    p.rewardGrowthInsideLast1 p.liquidity p.rewardAmountOwed1
  let (rl2, ro2) ← updateRewardOne protocolRewardGrowthInside.2.2
    p.rewardGrowthInsideLast2 p.liquidity p.rewardAmountOwed2
  let liq ← unwrapO (checkedSub p.liquidity liquidityDelta)
  let transferAmount0 ← checkedAddU64 decreaseAmount0 latestFeesOwed0
  let transferAmount1 ← checkedAddU64 decreaseAmount1 latestFeesOwed1
  .ok ({ p with
          liquidity := liq
          feeGrowthInside0LastX64 := protocolFeeGrowthInside0X64
          feeGrowthInside1LastX64 := protocolFeeGrowthInside1X64
          tokenFeesOwed0 := 0
          tokenFeesOwed1 := owed1
          rewardGrowthInsideLast0 := rl0
          rewardGrowthInsideLast1 := rl1
          rewardGrowthInsideLast2 := rl2
          rewardAmountOwed0 := ro0
          rewardAmountOwed1 := ro1
          rewardAmountOwed2 := ro2 },
        transferAmount0, transferAmount1)

/-- A tick array account (`TickArrayState`): 60 tick slots at
`tick_spacing` granularity.  `pool_id` is abstracted to a `Nat` key. -/
structure TickArrayState where
  poolId : Nat
  startTickIndex : Int
  ticks : List TickState
  initializedTickCount : Nat
deriving DecidableEq, Repr

/-- `TickArrayState::get_arrary_start_index`: truncating division with a
round-toward-negative-infinity adjustment for negative ticks. -/
def getArrayStartIndex (tickIndex : Int) (tickSpacing : Int) : Int :=
  let span := tickSpacing * TICK_ARRAY_SIZE
  let start := Int.tdiv tickIndex span
  let start := if tickIndex < 0 ∧ Int.tmod tickIndex span ≠ 0 then start - 1 else start
  start * span

/-- `TickArrayState::first_initialized_tick`: the highest initialized slot
when `zero_for_one`, the lowest otherwise; `InvalidTickArray` when none. -/
def TickArrayState.firstInitializedTick (ta : TickArrayState) (zeroForOne : Bool) :
    Outcome TickState :=
  let found :=
    if zeroForOne then ta.ticks.reverse.find? TickState.isInitialized
    else ta.ticks.find? TickState.isInitialized
  match found with
  | some t => .ok t
  | none => .fail .invalidTickArray

/-- `TickArrayState::next_initialized_tick`: when `current_tick_index`
lies outside this array, fall back to `first_initialized_tick`; otherwise
scan strictly in the swap direction from the enclosing slot. -/
def TickArrayState.nextInitializedTick (ta : TickArrayState) (currentTickIndex : Int)
    (tickSpacing : Int) (zeroForOne : Bool) : Outcome (Option TickState) :=
  let currentStart := getArrayStartIndex currentTickIndex tickSpacing
  if currentStart ≠ ta.startTickIndex then do
    let t ← ta.firstInitializedTick zeroForOne
    .ok (some t)
  else
    let offset := Int.tdiv (currentTickIndex - ta.startTickIndex) tickSpacing
    if zeroForOne then
      let offset :=
        if Int.tmod (currentTickIndex - ta.startTickIndex) tickSpacing = 0 then offset - 1
        else offset
      .ok ((ta.ticks.take (offset + 1).toNat).reverse.find? TickState.isInitialized)
    else
      .ok ((ta.ticks.drop (offset + 1).toNat).find? TickState.isInitialized)

/-- `TickArrayState::update_tick_state` via `get_tick_offset_in_array`:
requires the tick to be a spacing multiple inside this array, then
overwrites the slot. -/
def TickArrayState.updateTickState (ta : TickArrayState) (tickIndex : Int)
    (tickSpacing : Int) (t : TickState) : Outcome TickArrayState := do
  _ ← req (Int.tmod tickIndex tickSpacing = 0) .requireViolated
  _ ← req (getArrayStartIndex tickIndex tickSpacing = ta.startTickIndex) .invalidTickArray
  let offset := (Int.tdiv (tickIndex - ta.startTickIndex) tickSpacing).toNat
  .ok { ta with ticks := ta.ticks.set offset t }

/-- Scan for the highest set bit with index below the counter. -/
def highestSetBitBelow (x : Nat) : Nat → Option Nat
  | 0 => none
  | k + 1 => if x.testBit k then some k else highestSetBitBelow x k

/-- Scan upward for the lowest set bit, `fuel` positions starting at `i`. -/
def lowestSetBitFrom (x : Nat) : Nat → Nat → Option Nat
  | 0, _ => none
  | k + 1, i => if x.testBit i then some i else lowestSetBitFrom x k (i + 1)

/-- Rust `U1024::leading_zeros` on a 1024-bit value. -/
def leadingZeros1024 (x : Nat) : Nat :=
  match highestSetBitBelow x 1024 with
  | some h => 1023 - h
  | none => 1024

/-- Rust `U1024::trailing_zeros` on a 1024-bit value. -/
def trailingZeros1024 (x : Nat) : Nat :=
  match lowestSetBitFrom x 1024 0 with
  | some l => l
  | none => 1024

/-- `most_significant_bit` (`tick_array_bit_map.rs`): `None` for zero,
otherwise the leading-zero count. -/
def mostSignificantBit (x : Nat) : Option Nat :=
  if x = 0 then none else some (leadingZeros1024 x)

/-- `least_significant_bit`: `None` for zero, otherwise the trailing-zero
count. -/
def leastSignificantBit (x : Nat) : Option Nat :=
  if x = 0 then none else some (trailingZeros1024 x)

/-- `max_tick_in_tickarray_bitmap`: `tick_spacing * TICK_ARRAY_SIZE * 512`. -/
def maxTickInTickarrayBitmap (tickSpacing : Int) : Int :=
  tickSpacing * TICK_ARRAY_SIZE * 512

/-- Modelled from the spec (§4.5; `TickArrayState::check_is_valid_start_index`
is missing from `src/`): a valid tick-array start index is a multiple of
`tick_spacing * TICK_ARRAY_SIZE`. -/
def checkIsValidStartIndex (tickIndex : Int) (tickSpacing : Int) : Bool :=
  Int.tmod tickIndex (tickSpacing * TICK_ARRAY_SIZE) = 0

/-- Rust `U1024` left shift: overflowing bits are discarded. -/
def shl1024 (x s : Nat) : Nat :=
  (x * 2 ^ s) % 2 ^ 1024

/-- Components of `next_initialized_tick_array_start_index`
(`tick_array_bit_map.rs`): the next initialized tick-array start strictly
in the swap direction, or `None` when the search leaves the bitmap.  The
leading `assert!` is modelled as a trap.  Downward branch of the search:
shift the bit at `bit_pos` to position 1023 and count leading zeros. -/
def downSearch (bitMap : Nat) (bitPos : Nat) (multiplier : Int) : Outcome (Option Int) :=
  match mostSignificantBit (shl1024 bitMap (1024 - bitPos - 1)) with
  | some nb => .ok (some (((bitPos : Int) - (nb : Int) - 512) * multiplier))
  | none => .ok none

/-- Upward branch of the bitmap search: shift the bit at `bit_pos` to
position 0 and count trailing zeros. -/
def upSearch (bitMap : Nat) (bitPos : Nat) (multiplier : Int) : Outcome (Option Int) :=
  match leastSignificantBit (bitMap / 2 ^ bitPos) with
  | some nb => .ok (some (((bitPos : Int) + (nb : Int) - 512) * multiplier))
  | none => .ok none

/-- Tick-array bit position of an in-range start index: truncating
division by the array span with round-toward-negative-infinity
adjustment, then offset by 512 (absolute value as in the source). -/
def bitPosOf (next multiplier : Int) : Nat :=
  (if next < 0 ∧ Int.tmod next multiplier ≠ 0 then Int.tdiv next multiplier + 512 - 1
   else Int.tdiv next multiplier + 512).natAbs

/-- Full `next_initialized_tick_array_start_index`: step one array span in
the swap direction, return `None` past the bitmap boundary, otherwise
search the bitmap from the stepped position. -/
def nextInitializedTickArrayStartIndex (bitMap : Nat) (lastTickArrayStartIndex : Int)
    (tickSpacing : Int) (zeroForOne : Bool) : Outcome (Option Int) :=
  if ¬ checkIsValidStartIndex lastTickArrayStartIndex tickSpacing then .trap
  else if zeroForOne then
    if lastTickArrayStartIndex - tickSpacing * TICK_ARRAY_SIZE <
         -maxTickInTickarrayBitmap tickSpacing ∨
       lastTickArrayStartIndex - tickSpacing * TICK_ARRAY_SIZE ≥
         maxTickInTickarrayBitmap tickSpacing then .ok none
    else
      downSearch bitMap
        (bitPosOf (lastTickArrayStartIndex - tickSpacing * TICK_ARRAY_SIZE)
          (tickSpacing * TICK_ARRAY_SIZE))
        (tickSpacing * TICK_ARRAY_SIZE)
  else
    if lastTickArrayStartIndex + tickSpacing * TICK_ARRAY_SIZE <
         -maxTickInTickarrayBitmap tickSpacing ∨
       lastTickArrayStartIndex + tickSpacing * TICK_ARRAY_SIZE ≥
         maxTickInTickarrayBitmap tickSpacing then .ok none
    else
      upSearch bitMap
        (bitPosOf (lastTickArrayStartIndex + tickSpacing * TICK_ARRAY_SIZE)
          (tickSpacing * TICK_ARRAY_SIZE))
        (tickSpacing * TICK_ARRAY_SIZE)

/-- Modelled from the spec (`TickState::check_is_out_of_boundary` missing
from `src/`): a tick is out of boundary outside `[MIN_TICK, MAX_TICK]`. -/
def checkIsOutOfBoundary (tick : Int) : Bool :=
  tick < MIN_TICK ∨ tick > MAX_TICK

/-- `check_current_tick_array_is_initialized`: whether the tick array
containing `tick_current` has its bitmap bit set, and that array's start. -/
def checkCurrentTickArrayIsInitialized (bitMap : Nat) (tickCurrent : Int)
    (tickSpacing : Int) : Outcome (Bool × Int) :=
  if checkIsOutOfBoundary tickCurrent then .fail .invalidTickIndex
  else
    let multiplier := tickSpacing * TICK_ARRAY_SIZE
    let compressed := Int.tdiv tickCurrent multiplier + 512
    let compressed :=
      if tickCurrent < 0 ∧ Int.tmod tickCurrent multiplier ≠ 0 then compressed - 1
      else compressed
    let bitPos := compressed.natAbs
    .ok (bitMap.testBit bitPos, (compressed - 512) * multiplier)

/-- Binary exponentiation worker, structurally recursive on fuel. -/
def powBinAux : Nat → Nat → Nat → Nat → Nat
  | 0, _, _, acc => acc
  | f + 1, b, e, acc =>
    if e = 0 then acc
    else powBinAux f (b * b) (e / 2) (if e % 2 = 1 then acc * b else acc)

/-- Fast exponentiation, total for exponents below `2^32`. -/
def powBin (b e : Nat) : Nat := powBinAux 32 b e 1

/-- Floor square root by binary search over the 128 high bits. -/
def sqrtAux (x : Nat) : Nat → Nat → Nat → Nat
  | 0, s, _ => s
  | k + 1, s, p =>
    let c := s + p
    if c * c ≤ x then sqrtAux x k c (p / 2) else sqrtAux x k s (p / 2)

/-- Floor square root of a value below `2^256`. -/
def sqrtFloor (x : Nat) : Nat :=
  sqrtAux x 128 0 (2 ^ 127)

/-- Modelled from the spec (§4.2, `tick_math.rs` missing from `src/`):
the exact Q64.64 sqrt price at a tick,
`⌊√(1.0001^t) · 2^64⌋ = ⌊√(10001^t · 2^128 / 10000^t)⌋`. -/
def sqrtPriceX64AtTick (t : Int) : Nat :=
  if 0 ≤ t then sqrtFloor (powBin 10001 t.toNat * 2 ^ 128 / powBin 10000 t.toNat)
  else sqrtFloor (powBin 10000 (-t).toNat * 2 ^ 128 / powBin 10001 (-t).toNat)

/-- Modelled from the spec: sqrt-price bound matching `MIN_TICK`
(equals `sqrtPriceX64AtTick MIN_TICK`, see `min_sqrt_price_matches`). -/
def MIN_SQRT_PRICE_X64 : Nat := 4295048016

/-- Modelled from the spec: sqrt-price bound matching `MAX_TICK`
(equals `sqrtPriceX64AtTick MAX_TICK`, see `max_sqrt_price_matches`). -/
def MAX_SQRT_PRICE_X64 : Nat := 79226673515401279992447579061

/-- `get_sqrt_price_at_tick`: fails with a tick-overflow error outside
`[MIN_TICK, MAX_TICK]`. -/
def getSqrtPriceAtTick (t : Int) : Outcome Nat :=
  if t < MIN_TICK ∨ MAX_TICK < t then .fail .tickOverflow
  else .ok (sqrtPriceX64AtTick t)

/-- Binary search for the greatest tick whose sqrt price does not exceed
`p`; the invariant keeps `sqrtPriceX64AtTick lo ≤ p`. -/
def tickSearch (p : Nat) : Nat → Int → Int → Int
  | 0, lo, _ => lo
  | f + 1, lo, hi =>
    if lo < hi then
      let mid := (lo + hi + 1) / 2
      if sqrtPriceX64AtTick mid ≤ p then tickSearch p f mid hi
      else tickSearch p f lo (mid - 1)
    else lo

/-- Modelled from the spec (§4.2): `get_tick_at_sqrt_price` returns the
greatest tick `t` with `get_sqrt_price_at_tick(t) ≤ p`, failing outside
the representable price range. -/
def getTickAtSqrtPrice (p : Nat) : Outcome Int :=
  if p < MIN_SQRT_PRICE_X64 ∨ MAX_SQRT_PRICE_X64 < p then .fail .tickOverflow
  else .ok (tickSearch p 21 MIN_TICK MAX_TICK)

/-- Ceiling division (positive divisor). -/
def ceilDiv (a b : Nat) : Nat := (a + b - 1) / b

/-- Modelled from the spec (§4.3, `sqrt_price_math.rs` missing from
`src/`): token-0 amount between two sqrt prices `pa ≤ pb`,
`L·(pb − pa)·2^64 / (pb·pa)`, rounded per the caller's direction. -/
def getAmount0Delta (pa pb liquidity : Nat) (roundUp : Bool) : Nat :=
  let num := liquidity * (pb - pa) * Q64
  let den := pb * pa
  if roundUp then ceilDiv num den else num / den

/-- Modelled from the spec (§4.3): token-1 amount between two sqrt prices
`pa ≤ pb`, `L·(pb − pa) / 2^64`, rounded per the caller's direction. -/
def getAmount1Delta (pa pb liquidity : Nat) (roundUp : Bool) : Nat :=
  if roundUp then ceilDiv (liquidity * (pb - pa)) Q64
  else liquidity * (pb - pa) / Q64

/-- Modelled from the spec (§4.4): next sqrt price after adding
`amount_in` of the input token; price moves against the input and is
rounded so the pool is not undercharged. -/
def getNextSqrtPriceFromInput (sp liquidity amountIn : Nat) (zeroForOne : Bool) : Nat :=
  if zeroForOne then ceilDiv (liquidity * sp * Q64) (liquidity * Q64 + amountIn * sp)
  else sp + amountIn * Q64 / liquidity

/-- Modelled from the spec (§4.4): next sqrt price after removing
`amount_out` of the output token. -/
def getNextSqrtPriceFromOutput (sp liquidity amountOut : Nat) (zeroForOne : Bool) : Nat :=
  if zeroForOne then sp - ceilDiv (amountOut * Q64) liquidity
  else ceilDiv (liquidity * sp * Q64) (liquidity * Q64 - amountOut * sp)

/-- One step of the swap loop as computed by `compute_swap_step`. -/
structure SwapStep where
  sqrtPriceNextX64 : Nat
  amountIn : Nat
  amountOut : Nat
  feeAmount : Nat
deriving DecidableEq, Repr

/-- Modelled from the spec (§4.4, `swap_math.rs` missing from `src/`):
`compute_swap_step`.  The step direction is inferred from the price
order; for exact input the fee-reduced remainder is compared against the
rounded-up amount needed to reach the target, the fee is
`ceil(amount_in·fee/(1−fee))` on a full crossing and the entire remainder
`remaining − amount_in` otherwise; exact output is symmetric with the fee
always taken from the input side. -/
def computeSwapStep (spCurrent spTarget liquidity amountRemaining feeRate : Nat)
    (isBaseInput : Bool) : SwapStep :=
  let zeroForOne := spTarget ≤ spCurrent
  if isBaseInput then
    let amountRemainingLessFee := amountRemaining * (FEE_DENOM - feeRate) / FEE_DENOM
    let amountInMax :=
      if zeroForOne then getAmount0Delta spTarget spCurrent liquidity true
      else getAmount1Delta spCurrent spTarget liquidity true
    if amountInMax ≤ amountRemainingLessFee then
      let next := spTarget
      let amountOut :=
        if zeroForOne then getAmount1Delta next spCurrent liquidity false
        else getAmount0Delta spCurrent next liquidity false
      ⟨next, amountInMax, amountOut, ceilDiv (amountInMax * feeRate) (FEE_DENOM - feeRate)⟩
    else
      let amountIn := amountRemainingLessFee
      let next := getNextSqrtPriceFromInput spCurrent liquidity amountIn zeroForOne
      let amountOut :=
        if zeroForOne then getAmount1Delta next spCurrent liquidity false
        else getAmount0Delta spCurrent next liquidity false
      ⟨next, amountIn, amountOut, amountRemaining - amountIn⟩
  else
    let amountOutMax :=
      if zeroForOne then getAmount1Delta spTarget spCurrent liquidity false
      else getAmount0Delta spCurrent spTarget liquidity false
    if amountOutMax ≤ amountRemaining then
      let next := spTarget
      let amountIn :=
        if zeroForOne then getAmount0Delta next spCurrent liquidity true
        else getAmount1Delta spCurrent next liquidity true
      ⟨next, amountIn, amountOutMax, ceilDiv (amountIn * feeRate) (FEE_DENOM - feeRate)⟩
    else
      let next := getNextSqrtPriceFromOutput spCurrent liquidity amountRemaining zeroForOne
      let amountIn :=
        if zeroForOne then getAmount0Delta next spCurrent liquidity true
        else getAmount1Delta spCurrent next liquidity true
      ⟨next, amountIn, amountRemaining, ceilDiv (amountIn * feeRate) (FEE_DENOM - feeRate)⟩

/-- Checked `u64` multiplication with `unwrap`: traps on overflow. -/
def checkedMulU64 (a b : Nat) : Outcome Nat :=
  if a * b < U64MOD then .ok (a * b) else .trap

/-- Checked `u128` addition with `unwrap`: traps on overflow. -/
def checkedAddU128 (a b : Nat) : Outcome Nat :=
  if a + b < U128MOD then .ok (a + b) else .trap

/-- Modelled from the spec (§4.1, `liquidity_math.rs` missing from
`src/`): `add_delta` applies a signed liquidity delta to an unsigned
total, failing with the typed overflow / underflow errors on wrap. -/
def addDelta (x : Nat) (d : Int) : Outcome Nat :=
  if 0 ≤ d then
    if x + d.toNat < U128MOD then .ok (x + d.toNat) else .fail .liquidityOverflow
  else
    if d.natAbs ≤ x then .ok (x - d.natAbs) else .fail .liquidityUnderflow

/-- The fee split of one swap-loop iteration (`swap.rs` lines 324-364):
the protocol and fund deltas are both `⌊raw_fee · rate / FEE_DENOM⌋`
computed from the raw step fee, each guarded by `rate > 0`; when the
in-range liquidity is positive, the remainder grows the LP accumulator by
`⌊fee_rem · 2^64 / liquidity⌋` and is counted into the swap's fee total.
Returns the remainder fee and the updated
`(fee_growth_global, fee_amount, protocol_fee, fund_fee)` values.  All
arithmetic mirrors the checked operations and `unwrap`s of the source. -/
def protocolFeePart (stepFeeAmount protocolFeeRate protocolFeeAcc : Nat) :
    Outcome (Nat × Nat) :=
  if 0 < protocolFeeRate then do
    let m ← checkedMulU64 stepFeeAmount protocolFeeRate
    let delta := m / FEE_DENOM
    let f ← unwrapO (checkedSub stepFeeAmount delta)
    let pa ← checkedAddU64 protocolFeeAcc delta
    .ok (f, pa)
  else .ok (stepFeeAmount, protocolFeeAcc)

/-- The fund-fee deduction of one swap-loop iteration: the delta is again
computed from the raw step fee but deducted from the
already-protocol-reduced fee. -/
def fundFeePart (stepFeeAmount fee1 fundFeeRate fundFeeAcc : Nat) :
    Outcome (Nat × Nat) :=
  if 0 < fundFeeRate then do
    let m ← checkedMulU64 stepFeeAmount fundFeeRate
    let delta := m / FEE_DENOM
    let f ← unwrapO (checkedSub fee1 delta)
    let fa ← checkedAddU64 fundFeeAcc delta
    .ok (f, fa)
  else .ok (fee1, fundFeeAcc)

/-- The LP share of one swap-loop iteration: only when the in-range
liquidity is positive, grow the accumulator by `⌊fee_rem·2^64/L⌋` and
count the remainder into the swap fee total. -/
def lpFeePart (fee2 liquidity feeGrowthGlobalX64 feeAmountAcc : Nat) :
    Outcome (Nat × Nat) :=
  if 0 < liquidity then do
    let d ← unwrapO (mulDivFloorU128 fee2 Q64 liquidity)
    let g ← checkedAddU128 feeGrowthGlobalX64 d
    let fAmt ← checkedAddU64 feeAmountAcc fee2
    .ok (g, fAmt)
  else .ok (feeGrowthGlobalX64, feeAmountAcc)

/-- Composition of the three fee parts, as executed by the loop body. -/
def applyStepFee (stepFeeAmount protocolFeeRate fundFeeRate liquidity
    feeGrowthGlobalX64 feeAmountAcc protocolFeeAcc fundFeeAcc : Nat) :
    Outcome (Nat × Nat × Nat × Nat × Nat) := do
  let (fee1, pAcc) ← protocolFeePart stepFeeAmount protocolFeeRate protocolFeeAcc
  let (fee2, fAcc) ← fundFeePart stepFeeAmount fee1 fundFeeRate fundFeeAcc
  let (g, fAmt) ← lpFeePart fee2 liquidity feeGrowthGlobalX64 feeAmountAcc
  .ok (fee2, g, fAmt, pAcc, fAcc)

/-- `AmmConfig` fields used by the swap path. -/
structure AmmConfig where
  tradeFeeRate : Nat
  protocolFeeRate : Nat
  fundFeeRate : Nat
  tickSpacing : Nat
deriving DecidableEq, Repr

/-- `PoolState` fields used by the swap path.  The observation ring and
identity fields not consulted by the modelled operations are omitted;
`pool_id` abstracts the account key. -/
structure Pool where
  poolId : Nat
  status : Nat
  tickSpacing : Nat
  tickCurrent : Int
  sqrtPriceX64 : Nat
  liquidity : Nat
  feeGrowthGlobal0X64 : Nat
  feeGrowthGlobal1X64 : Nat
  tickArrayBitmap : Nat
  totalFeesToken0 : Nat
  totalFeesToken1 : Nat
  protocolFeesToken0 : Nat
  protocolFeesToken1 : Nat
  fundFeesToken0 : Nat
  fundFeesToken1 : Nat
  swapInAmountToken0 : Nat
  swapOutAmountToken1 : Nat
  swapInAmountToken1 : Nat
  swapOutAmountToken0 : Nat
  rewards : Rewards
deriving DecidableEq, Repr

/-- Modelled from the spec (§3; `pool.rs` missing from `src/`): an
operation's status bit allows the operation when clear — the default
status `0` enables everything, consistent with the in-repo tests. -/
def Pool.getStatusByBit (p : Pool) (bit : Nat) : Bool :=
  ¬ p.status.testBit bit

/-- Modelled from the spec (§4.8 step 1 and §9; `pool.rs` missing from
`src/`): refresh one reward: an `Initialized` reward opens at
`open_time`; an `Opened` reward accrues
`emissions·Δt / liquidity` of growth up to `end_time` and then ends. -/
def updateRewardInfoOne (liquidity blockTimestamp : Nat) (r : RewardInfo) : RewardInfo :=
  if r.rewardState = 0 then r
  else
    let r :=
      if r.rewardState = 1 ∧ r.openTime ≤ blockTimestamp then { r with rewardState := 2 }
      else r
    if r.rewardState = 2 then
      let tEff := min blockTimestamp r.endTime
      let dt := tEff - r.lastUpdateTime
      let emitted := r.emissionsPerSecondX64 * dt
      let r := { r with
        rewardGrowthGlobalX64 :=
          (r.rewardGrowthGlobalX64 + (if 0 < liquidity then emitted / liquidity else 0)) % U128MOD
        rewardTotalEmissioned := r.rewardTotalEmissioned + emitted / Q64
        lastUpdateTime := tEff }
      if r.endTime ≤ blockTimestamp then { r with rewardState := 3 } else r
    else r

/-- Modelled from the spec (§4.8 step 1): `update_reward_infos`. -/
def Pool.updateRewardInfos (p : Pool) (blockTimestamp : Nat) : Rewards :=
  ⟨updateRewardInfoOne p.liquidity blockTimestamp p.rewards.r0,
   updateRewardInfoOne p.liquidity blockTimestamp p.rewards.r1,
   updateRewardInfoOne p.liquidity blockTimestamp p.rewards.r2⟩

/-- Modelled from the spec (§4.8; `pool.rs` missing from `src/`):
`get_first_initialized_tick_array` returns the start of the tick array
holding `tick_current` when its bitmap bit is set, otherwise the next
initialized start in the swap direction; a typed error when none exists.
The swap entry point calls it with `.unwrap()`. -/
def Pool.getFirstInitializedTickArray (p : Pool) (zeroForOne : Bool) : Outcome Int := do
  let (isInit, start) ← checkCurrentTickArrayIsInitialized p.tickArrayBitmap p.tickCurrent
    (p.tickSpacing : Int)
  if isInit then .ok start
  else do
    let n ← nextInitializedTickArrayStartIndex p.tickArrayBitmap start (p.tickSpacing : Int)
      zeroForOne
    match n with
    | some s => .ok s
    | none => .fail .invalidTickArray

/-- The local state of `swap_internal`'s loop (`SwapState`). -/
structure SwapState where
  amountSpecifiedRemaining : Nat
  amountCalculated : Nat
  sqrtPriceX64 : Nat
  tick : Int
  feeGrowthGlobalX64 : Nat
  feeAmount : Nat
  protocolFee : Nat
  fundFee : Nat
  liquidity : Nat
deriving DecidableEq, Repr

/-- The swap loop (`swap.rs` lines 218-424), fuel-based.  Each iteration
finds the next initialized tick (consulting the bitmap and popping the
caller's deque when the current array is exhausted — `pop_front().unwrap()`
traps on an empty deque), computes one `compute_swap_step`, applies the
amount bookkeeping and fee split, and crosses the tick when the step
reached an initialized boundary. -/
def swapLoop (cfg : AmmConfig) (pool : Pool) (rewards : Rewards)
    (sqrtPriceLimitX64 : Nat) (zeroForOne isBaseInput : Bool) :
    Nat → SwapState → TickArrayState → Int → List TickArrayState →
    Outcome (SwapState × TickArrayState × Int × List TickArrayState)
  | 0, _, _, _, _ => .trap
  | fuel + 1, st, taCur, curStart, deque =>
    if st.amountSpecifiedRemaining ≠ 0 ∧ st.sqrtPriceX64 ≠ sqrtPriceLimitX64 then do
      let spacing : Int := (pool.tickSpacing : Int)
      let nt? ← taCur.nextInitializedTick st.tick spacing zeroForOne
      let nt0 := nt?.getD TickState.default
      let (nt, taCur1, curStart1, deque1) ←
        if ¬ nt0.isInitialized then do
          let next? ← nextInitializedTickArrayStartIndex pool.tickArrayBitmap curStart
            spacing zeroForOne
          let curStart' ← unwrapO next?
          match deque with
          | [] => (Outcome.trap : Outcome (TickState × TickArrayState × Int × List TickArrayState))
          | ta :: rest => do
            _ ← req (ta.poolId = pool.poolId) .requireViolated
            _ ← req (ta.startTickIndex = curStart') .accountKeyMismatch
            let ft ← ta.firstInitializedTick zeroForOne
            .ok (ft, ta, curStart', rest)
        else .ok (nt0, taCur, curStart, deque)
      let tickNext :=
        if nt.tick < MIN_TICK then MIN_TICK
        else if MAX_TICK < nt.tick then MAX_TICK
        else nt.tick
      let initialized := nt.isInitialized
      let spNext ← getSqrtPriceAtTick tickNext
      let target :=
        if (zeroForOne ∧ spNext < sqrtPriceLimitX64) ∨
           (¬ zeroForOne ∧ sqrtPriceLimitX64 < spNext) then sqrtPriceLimitX64
        else spNext
      let step := computeSwapStep st.sqrtPriceX64 target st.liquidity
        st.amountSpecifiedRemaining cfg.tradeFeeRate isBaseInput
      let (remaining', calculated') ←
        if isBaseInput then do
          let r ← unwrapO (checkedSub st.amountSpecifiedRemaining
            (step.amountIn + step.feeAmount))
          let c ← checkedAddU64 st.amountCalculated step.amountOut
          .ok (r, c)
        else do
          let r ← unwrapO (checkedSub st.amountSpecifiedRemaining step.amountOut)
          let c ← checkedAddU64 st.amountCalculated (step.amountIn + step.feeAmount)
          .ok (r, c)
      let (_, feeGrowth', feeAmount', protocolFee', fundFee') ← applyStepFee step.feeAmount
        cfg.protocolFeeRate cfg.fundFeeRate st.liquidity st.feeGrowthGlobalX64
        st.feeAmount st.protocolFee st.fundFee
      let (liquidity', taCur2, tick') ←
        if step.sqrtPriceNextX64 = spNext then
          if initialized then do
            let (crossed, net) ← nt.cross
              (if zeroForOne then feeGrowth' else pool.feeGrowthGlobal0X64)
              (if zeroForOne then pool.feeGrowthGlobal1X64 else feeGrowth')
              rewards
            let ta' ← taCur1.updateTickState nt.tick spacing crossed
            let net := if zeroForOne then -net else net
            let l ← addDelta st.liquidity net
            .ok (l, ta', if zeroForOne then tickNext - 1 else tickNext)
          else
            .ok (st.liquidity, taCur1, if zeroForOne then tickNext - 1 else tickNext)
        else if step.sqrtPriceNextX64 ≠ st.sqrtPriceX64 then do
          let t ← getTickAtSqrtPrice step.sqrtPriceNextX64
          .ok (st.liquidity, taCur1, t)
        else .ok (st.liquidity, taCur1, st.tick)
      swapLoop cfg pool rewards sqrtPriceLimitX64 zeroForOne isBaseInput fuel
        { st with
            amountSpecifiedRemaining := remaining'
            amountCalculated := calculated'
            sqrtPriceX64 := step.sqrtPriceNextX64
            tick := tick'
            feeGrowthGlobalX64 := feeGrowth'
            feeAmount := feeAmount'
            protocolFee := protocolFee'
            fundFee := fundFee'
            liquidity := liquidity' }
        taCur2 curStart1 deque1
    else .ok (st, taCur, curStart, deque)

/-- Result of `swap_internal`: the mutated pool and the settled token
amounts. -/
structure SwapResult where
  pool : Pool
  amount0 : Nat
  amount1 : Nat
deriving DecidableEq, Repr

/-- `swap_internal` (`swap.rs` lines 141-522): precondition checks,
reward refresh, the loop, and the post-loop pool bookkeeping.  The
observation-ring update is omitted (it touches no field any claim
consults).  `obsPoolId` models the observation account's `pool_id`. -/
def swapInternal (cfg : AmmConfig) (pool : Pool) (deque : List TickArrayState)
    (obsPoolId : Nat) (amountSpecified sqrtPriceLimitX64 : Nat)
    (zeroForOne isBaseInput : Bool) (blockTimestamp : Nat) : Outcome SwapResult := do
  _ ← req (amountSpecified ≠ 0) .invalidSwapAmountSpecified
  _ ← req (pool.getStatusByBit 0) .notApproved
  _ ← req (decide (if zeroForOne then
        sqrtPriceLimitX64 < pool.sqrtPriceX64 ∧ MIN_SQRT_PRICE_X64 < sqrtPriceLimitX64
      else
        pool.sqrtPriceX64 < sqrtPriceLimitX64 ∧ sqrtPriceLimitX64 < MAX_SQRT_PRICE_X64))
    .sqrtPriceLimitOverflow
  let liquidityStart := pool.liquidity
  let rewards := pool.updateRewardInfos blockTimestamp
  let pool := { pool with rewards := rewards }
  let st0 : SwapState :=
    ⟨amountSpecified, 0, pool.sqrtPriceX64, pool.tickCurrent,
     (if zeroForOne then pool.feeGrowthGlobal0X64 else pool.feeGrowthGlobal1X64),
     0, 0, 0, pool.liquidity⟩
  _ ← req (obsPoolId = pool.poolId) .requireViolated
  let (taCur, dequeRest) ←
    match deque with
    | [] => (Outcome.trap : Outcome (TickArrayState × List TickArrayState))
    | ta :: rest => .ok (ta, rest)
  _ ← req (taCur.poolId = pool.poolId) .requireViolated
  let curStart ← unwrapR (pool.getFirstInitializedTickArray zeroForOne)
  _ ← req (taCur.startTickIndex = curStart) .accountKeyMismatch
  let (st, _, _, _) ← swapLoop cfg pool rewards sqrtPriceLimitX64 zeroForOne isBaseInput
    100 st0 taCur curStart dequeRest
  let pool := if st.tick ≠ pool.tickCurrent then { pool with tickCurrent := st.tick } else pool
  let pool := { pool with sqrtPriceX64 := st.sqrtPriceX64 }
  let pool :=
    if liquidityStart ≠ st.liquidity then { pool with liquidity := st.liquidity } else pool
  let consumed ← unwrapO (checkedSub amountSpecified st.amountSpecifiedRemaining)
  let (amount0, amount1) :=
    if zeroForOne = isBaseInput then (consumed, st.amountCalculated)
    else (st.amountCalculated, consumed)
  if zeroForOne then do
    let tf ← checkedAddU64 pool.totalFeesToken0 st.feeAmount
    let pf ← if 0 < st.protocolFee then checkedAddU64 pool.protocolFeesToken0 st.protocolFee
             else .ok pool.protocolFeesToken0
    let ff ← if 0 < st.fundFee then checkedAddU64 pool.fundFeesToken0 st.fundFee
             else .ok pool.fundFeesToken0
    let si ← checkedAddU128 pool.swapInAmountToken0 amount0
    let so ← checkedAddU128 pool.swapOutAmountToken1 amount1
    .ok ⟨{ pool with
            feeGrowthGlobal0X64 := st.feeGrowthGlobalX64
            totalFeesToken0 := tf
            protocolFeesToken0 := pf
            fundFeesToken0 := ff
            swapInAmountToken0 := si
            swapOutAmountToken1 := so }, amount0, amount1⟩
  else do
    let tf ← checkedAddU64 pool.totalFeesToken1 st.feeAmount
    let pf ← if 0 < st.protocolFee then checkedAddU64 pool.protocolFeesToken1 st.protocolFee
             else .ok pool.protocolFeesToken1
    let ff ← if 0 < st.fundFee then checkedAddU64 pool.fundFeesToken1 st.fundFee
             else .ok pool.fundFeesToken1
    let si ← checkedAddU128 pool.swapInAmountToken1 amount1
    let so ← checkedAddU128 pool.swapOutAmountToken0 amount0
    .ok ⟨{ pool with
            feeGrowthGlobal1X64 := st.feeGrowthGlobalX64
            totalFeesToken1 := tf
            protocolFeesToken1 := pf
            fundFeesToken1 := ff
            swapInAmountToken1 := si
            swapOutAmountToken0 := so }, amount0, amount1⟩

/-- The two SPL transfers of `exact_internal`: the user pays the input
side into its vault and the pool pays the output side out of its vault;
a failed token transfer aborts with a typed error. -/
def transferPair (zeroForOne : Bool) (inputVaultAmount outputVaultAmount a0 a1 : Nat) :
    Outcome (Nat × Nat) :=
  if zeroForOne then do
    let iv ← if inputVaultAmount + a0 < U64MOD then
        (Outcome.ok (inputVaultAmount + a0)) else .fail .splTransferFailed
    let ov ← if a1 ≤ outputVaultAmount then
        (Outcome.ok (outputVaultAmount - a1)) else .fail .splTransferFailed
    .ok (iv, ov)
  else do
    let iv ← if inputVaultAmount + a1 < U64MOD then
        (Outcome.ok (inputVaultAmount + a1)) else .fail .splTransferFailed
    let ov ← if a0 ≤ outputVaultAmount then
        (Outcome.ok (outputVaultAmount - a0)) else .fail .splTransferFailed
    .ok (iv, ov)

/-- The strict post-swap price check of `exact_internal`
(`require_gt!`): price must have moved strictly in the swap direction. -/
def priceDirectionCheck (zeroForOne : Bool) (priceAfter priceBefore : Nat) :
    Outcome Unit :=
  if zeroForOne then req (decide (priceAfter < priceBefore)) .requireGtViolated
  else req (decide (priceBefore < priceAfter)) .requireGtViolated

/-- The value returned by `exact_internal`: the output vault balance
decrease for exact input, the input vault balance increase otherwise. -/
def returnedOf (isBaseInput : Bool) (outputBalanceBefore outAfter inAfter
    inputBalanceBefore : Nat) : Outcome Nat :=
  if isBaseInput then unwrapO (checkedSub outputBalanceBefore outAfter)
  else unwrapO (checkedSub inAfter inputBalanceBefore)

/-- Result of `exact_internal`: the returned settled amount (output
received for exact input, input paid for exact output), the post pool
and vault balances, and the raw swap amounts. -/
structure ExactResult where
  returnedAmount : Nat
  pool : Pool
  inputVaultAfter : Nat
  outputVaultAfter : Nat
  amount0 : Nat
  amount1 : Nat
deriving DecidableEq, Repr

/-- `exact_internal` (`swap.rs` lines 526-678): vault identity check,
default price limits, `swap_internal`, the non-zero-amount check, the two
vault transfers, the strict price-direction `require_gt`, and the
returned vault balance difference.  `zeroForOne` models the input-mint
comparison and `vaultsOk` the vault identity requirement. -/
def exactInternal (cfg : AmmConfig) (pool : Pool) (deque : List TickArrayState)
    (obsPoolId : Nat) (vaultsOk zeroForOne : Bool)
    (inputVaultAmount outputVaultAmount : Nat)
    (amountSpecified sqrtPriceLimitX64 : Nat) (isBaseInput : Bool)
    (blockTimestamp : Nat) : Outcome ExactResult := do
  let inputBalanceBefore := inputVaultAmount
  let outputBalanceBefore := outputVaultAmount
  let swapPriceBefore := pool.sqrtPriceX64
  _ ← req vaultsOk .invalidInputPoolVault
  let limit :=
    if sqrtPriceLimitX64 = 0 then
      if zeroForOne then MIN_SQRT_PRICE_X64 + 1 else MAX_SQRT_PRICE_X64 - 1
    else sqrtPriceLimitX64
  let r ← swapInternal cfg pool deque obsPoolId amountSpecified limit zeroForOne
    isBaseInput blockTimestamp
  _ ← req (decide (r.amount0 ≠ 0 ∧ r.amount1 ≠ 0)) .tooSmallInputOrOutputAmount
  let (inAfter, outAfter) ← transferPair zeroForOne inputVaultAmount outputVaultAmount
    r.amount0 r.amount1
  _ ← priceDirectionCheck zeroForOne r.pool.sqrtPriceX64 swapPriceBefore
  let ret ← returnedOf isBaseInput outputBalanceBefore outAfter inAfter inputBalanceBefore
  .ok ⟨ret, r.pool, inAfter, outAfter, r.amount0, r.amount1⟩

/-- The public `swap` operation (`swap.rs` lines 680-718):
`exact_internal` followed by the caller's threshold check on the
unspecified side. -/
def swapOp (cfg : AmmConfig) (pool : Pool) (deque : List TickArrayState)
    (obsPoolId : Nat) (vaultsOk zeroForOne : Bool)
    (inputVaultAmount outputVaultAmount : Nat)
    (amount otherAmountThreshold sqrtPriceLimitX64 : Nat) (isBaseInput : Bool)
    (blockTimestamp : Nat) : Outcome ExactResult := do
  let r ← exactInternal cfg pool deque obsPoolId vaultsOk zeroForOne
    inputVaultAmount outputVaultAmount amount sqrtPriceLimitX64 isBaseInput blockTimestamp
  if isBaseInput then do
    _ ← req (decide (otherAmountThreshold ≤ r.returnedAmount)) .tooLittleOutputReceived
    .ok r
  else do
    _ ← req (decide (r.returnedAmount ≤ otherAmountThreshold)) .tooMuchInputPaid
    .ok r

/-- Extract the value of a successful outcome, with a fallback. -/
def okOr {α : Type} (o : Outcome α) (d : α) : α :=
  match o with
  | .ok a => a
  | _ => d

/-- Project the pool post-state and settled amounts of a `swap_internal`
outcome. -/
def swapSummary (o : Outcome SwapResult) : Option (Int × Nat × Nat × Nat × Nat) :=
  match o with
  | .ok r => some (r.pool.tickCurrent, r.pool.sqrtPriceX64, r.pool.liquidity,
      r.amount0, r.amount1)
  | _ => none

/-- An all-default 60-slot tick list. -/
def emptyTicks : List TickState := List.replicate 60 TickState.default

/-- Place a tick state at its slot `(tick - start) / spacing`. -/
def placeTick (start spacing : Int) (ticks : List TickState) (t : TickState) :
    List TickState :=
  ticks.set (Int.tdiv (t.tick - start) spacing).toNat t

/-- Build a tick array account with the given ticks placed at their
slots (the test helper `build_tick_array_with_tick_states`). -/
def buildTickArray (poolId : Nat) (start spacing : Int) (ts : List TickState) :
    TickArrayState :=
  ⟨poolId, start, ts.foldl (placeTick start spacing) emptyTicks, ts.length⟩

/-- A tick carrying only liquidity (the test helper `build_tick`). -/
def mkTick (tick : Int) (gross : Nat) (net : Int) : TickState :=
  { TickState.default with tick := tick, liquidityGross := gross, liquidityNet := net }

/-- The `AmmConfig` of the swap test scenarios: tick spacing 60, all fee
rates zero (`AmmConfig::default`). -/
def scnConfig : AmmConfig := ⟨0, 0, 0, 60⟩

/-- Tick array `[-32400, -28800)` of the `zero_for_one_base_input_test`
scenario. -/
def scnArrayA : TickArrayState :=
  buildTickArray 1 (-32400) 60
    [mkTick (-32400) 277065331032 (-277065331032),
     mkTick (-29220) 1330680689 (-1330680689),
     mkTick (-28860) 6408486554 (-6408486554)]

/-- Tick array `[-36000, -32400)` of the same scenario. -/
def scnArrayB : TickArrayState :=
  buildTickArray 1 (-36000) 60
    [mkTick (-32460) 1194569667438 536061033698,
     mkTick (-32520) 790917615645 790917615645,
     mkTick (-32580) 152146472301 128451145459,
     mkTick (-32640) 2625605835354 (-1492054447712)]

/-- Pool of the scenario: `tick_current = -32395`, tick spacing 60,
`sqrt_price_x64 = 3651942632306380802`, `liquidity = 5124165121219`,
bitmap bits set for the array starts `-32400` and `-36000`. -/
def scnPool : Pool :=
  { poolId := 1, status := 0, tickSpacing := 60, tickCurrent := -32395,
    sqrtPriceX64 := 3651942632306380802, liquidity := 5124165121219,
    feeGrowthGlobal0X64 := 0, feeGrowthGlobal1X64 := 0,
    tickArrayBitmap := 3 * powBin 2 502,
    totalFeesToken0 := 0, totalFeesToken1 := 0,
    protocolFeesToken0 := 0, protocolFeesToken1 := 0,
    fundFeesToken0 := 0, fundFeesToken1 := 0,
    swapInAmountToken0 := 0, swapOutAmountToken1 := 0,
    swapInAmountToken1 := 0, swapOutAmountToken0 := 0,
    rewards := Rewards.default }

/-- The literal scenario swap of claim C8: `zero_for_one`, exact input
`12188240002`, price limit `3049500711113990606`. -/
def c8Run : Outcome SwapResult :=
  swapInternal scnConfig scnPool [scnArrayA, scnArrayB] 1 12188240002
    3049500711113990606 true true 0

/-- Tick array `[-32400, -28800)` holding only tick `-32340`, for the
deque-exhaustion scenario. -/
def scnArrayC : TickArrayState :=
  buildTickArray 1 (-32400) 60 [mkTick (-32340) 1 0]

/-- Pool for the deque-exhaustion scenario: `tick_current = -32340`, the
swap must advance to array `-36000` but the deque holds only the current
array. -/
def scnPoolC4 : Pool := { scnPool with tickCurrent := -32340 }

/-- The deque-exhaustion run: one tick array supplied, the loop needs a
second. -/
def c4Run : Outcome SwapResult :=
  swapInternal scnConfig scnPoolC4 [scnArrayC] 1 1000 3049500711113990606 true true 0

/-- A placeholder `ExactResult` for `okOr`. -/
def exDefault : ExactResult := ⟨0, scnPool, 0, 0, 0, 0⟩

/-- A small in-range swap through `exact_internal` on the scenario pool
(single partial step, no tick crossing). -/
def c6Run : Outcome ExactResult :=
  exactInternal scnConfig scnPool [scnArrayA, scnArrayB] 1 true true
    1000000000000000 1000000000000000 6000000000 3049500711113990606 true 0

/-- The successful result of that swap. -/
def c6Res : ExactResult := okOr c6Run exDefault

/-- The same swap through the public `swap` operation with output
threshold `200000000`. -/
def c7Run : Outcome ExactResult :=
  swapOp scnConfig scnPool [scnArrayA, scnArrayB] 1 true true
    1000000000000000 1000000000000000 6000000000 200000000 3049500711113990606 true 0

/-- The successful result of the thresholded swap. -/
def c7Res : ExactResult := okOr c7Run exDefault

/-- Concrete personal position for the decrease settlement witness. -/
def scnPersonal : PersonalPosition := ⟨10, 5, 5, 1, 2, 0, 0, 0, 0, 0, 0⟩

/-- Concrete tick state for the cross involution witness. -/
def scnCrossTick : TickState := ⟨5, 7, 11, 1, 2, 3, 0, 0⟩

/-- Rewards with only slot 0 initialized, growth global 9. -/
def scnCrossRewards : Rewards :=
  ⟨⟨1, 0, 0, 0, 0, 0, 9⟩, RewardInfo.default, RewardInfo.default⟩

/-- The expected result of crossing `scnCrossTick` once at globals 10/10. -/
def scnCrossedTick : TickState := ⟨5, 7, 11, 9, 8, 6, 0, 0⟩

set_option maxRecDepth 100000

theorem ok_bind {α β : Type} (a : α) (f : α → Outcome β) :
    (Outcome.ok a >>= f) = f a := rfl

theorem trap_bind {α β : Type} (f : α → Outcome β) :
    ((Outcome.trap : Outcome α) >>= f) = .trap := rfl

theorem fail_bind {α β : Type} (e : ErrCode) (f : α → Outcome β) :
    ((Outcome.fail e : Outcome α) >>= f) = .fail e := rfl

theorem bind_eq_ok {α β : Type} {x : Outcome α} {f : α → Outcome β} {b : β}
    (h : (x >>= f) = .ok b) : ∃ a, x = .ok a ∧ f a = .ok b := by
  cases x with
  | ok a => exact ⟨a, rfl, h⟩
  | fail e => exact absurd h (by simp [Bind.bind, Outcome.bind])
  | trap => exact absurd h (by simp [Bind.bind, Outcome.bind])

theorem req_ok {b : Bool} {e : ErrCode} {u : Unit} (h : req b e = .ok u) : b = true := by
  cases b
  · simp [req] at h
  · rfl

theorem req_of {b : Bool} {e : ErrCode} (h : b = true) : req b e = .ok () := by
  rw [h]; rfl

theorem priceDirectionCheck_ok {zfo : Bool} {pa pb : Nat} {u : Unit}
    (h : priceDirectionCheck zfo pa pb = .ok u) :
    (zfo = true → pa < pb) ∧ (zfo = false → pb < pa) := by
  cases zfo
  · have hb := req_ok (by simpa [priceDirectionCheck] using h)
    rw [decide_eq_true_eq] at hb
    exact ⟨fun hc => Bool.noConfusion hc, fun _ => hb⟩
  · have hb := req_ok (by simpa [priceDirectionCheck] using h)
    rw [decide_eq_true_eq] at hb
    exact ⟨fun _ => hb, fun hc => Bool.noConfusion hc⟩

theorem divAddDivLe (a b c : Nat) (hc : 0 < c) : a / c + b / c ≤ (a + b) / c := by
  rw [Nat.le_div_iff_mul_le hc, Nat.add_mul]
  exact Nat.add_le_add (Nat.div_mul_le_self a c) (Nat.div_mul_le_self b c)

theorem protocolFeePart_eq (fee pr pa : Nat)
    (hmul : fee * pr < U64MOD) (hpd : fee * pr / FEE_DENOM ≤ fee)
    (hpa : pa + fee * pr / FEE_DENOM < U64MOD) :
    protocolFeePart fee pr pa =
      .ok (fee - fee * pr / FEE_DENOM, pa + fee * pr / FEE_DENOM) := by
  unfold protocolFeePart
  by_cases hpr : 0 < pr
  · rw [if_pos hpr]
    simp only [checkedMulU64, if_pos hmul, ok_bind, checkedSub, if_pos hpd, unwrapO,
      checkedAddU64, if_pos hpa, ok_bind]
  · have h0 : pr = 0 := by omega
    subst h0
    simp

theorem fundFeePart_eq (fee fee1 fr fu : Nat)
    (hmul : fee * fr < U64MOD) (hfd : fee * fr / FEE_DENOM ≤ fee1)
    (hfu : fu + fee * fr / FEE_DENOM < U64MOD) :
    fundFeePart fee fee1 fr fu =
      .ok (fee1 - fee * fr / FEE_DENOM, fu + fee * fr / FEE_DENOM) := by
  unfold fundFeePart
  by_cases hfr : 0 < fr
  · rw [if_pos hfr]
    simp only [checkedMulU64, if_pos hmul, ok_bind, checkedSub, if_pos hfd, unwrapO,
      checkedAddU64, if_pos hfu, ok_bind]
  · have h0 : fr = 0 := by omega
    subst h0
    simp

theorem lpFeePart_eq (fee2 liquidity g fa : Nat) (hfee2 : fee2 < U64MOD)
    (hg : 0 < liquidity → g + fee2 * Q64 / liquidity < U128MOD)
    (hfa : 0 < liquidity → fa + fee2 < U64MOD) :
    lpFeePart fee2 liquidity g fa =
      .ok ((if 0 < liquidity then g + fee2 * Q64 / liquidity else g),
           (if 0 < liquidity then fa + fee2 else fa)) := by
  unfold lpFeePart
  by_cases hL : 0 < liquidity
  · have hLne : ¬ (liquidity = 0) := by omega
    have h128 : fee2 * Q64 / liquidity < U128MOD := by
      calc fee2 * Q64 / liquidity ≤ fee2 * Q64 := Nat.div_le_self _ _
      _ < U64MOD * Q64 := (Nat.mul_lt_mul_right (show (0 : Nat) < Q64 by decide)).mpr hfee2
      _ = U128MOD := by decide
    rw [if_pos hL, if_pos hL, if_pos hL]
    simp only [mulDivFloorU128, if_neg hLne, if_pos h128, unwrapO, ok_bind,
      checkedAddU128, if_pos (hg hL), checkedAddU64, if_pos (hfa hL), ok_bind]
  · rw [if_neg hL, if_neg hL, if_neg hL]

theorem hsbb_some {x : Nat} : ∀ {n h : Nat}, highestSetBitBelow x n = some h →
    h < n ∧ x.testBit h = true ∧ ∀ j, h < j → j < n → x.testBit j = false := by
  intro n
  induction n with
  | zero => intro h hh; simp [highestSetBitBelow] at hh
  | succ k ih =>
    intro h hh
    unfold highestSetBitBelow at hh
    by_cases hb : x.testBit k
    · rw [if_pos hb] at hh
      cases hh
      exact ⟨Nat.lt_succ_self k, hb, fun j h1 h2 => by omega⟩
    · rw [if_neg hb] at hh
      obtain ⟨ha, hbit, hmax⟩ := ih hh
      refine ⟨Nat.lt_succ_of_lt ha, hbit, fun j h1 h2 => ?_⟩
      rcases Nat.lt_or_ge j k with hj | hj
      · exact hmax j h1 hj
      · have : j = k := by omega
        subst this
        exact Bool.not_eq_true _ ▸ (by simpa using hb)

theorem hsbb_none {x : Nat} : ∀ {n : Nat}, highestSetBitBelow x n = none →
    ∀ j, j < n → x.testBit j = false := by
  intro n
  induction n with
  | zero => intro _ j hj; omega
  | succ k ih =>
    intro hh j hj
    unfold highestSetBitBelow at hh
    by_cases hb : x.testBit k
    · rw [if_pos hb] at hh; cases hh
    · rw [if_neg hb] at hh
      rcases Nat.lt_or_ge j k with hjk | hjk
      · exact ih hh j hjk
      · have : j = k := by omega
        subst this
        simpa using hb

theorem lsbf_some {x : Nat} : ∀ {f i l : Nat}, lowestSetBitFrom x f i = some l →
    i ≤ l ∧ l < i + f ∧ x.testBit l = true ∧ ∀ j, i ≤ j → j < l → x.testBit j = false := by
  intro f
  induction f with
  | zero => intro i l hl; simp [lowestSetBitFrom] at hl
  | succ k ih =>
    intro i l hl
    unfold lowestSetBitFrom at hl
    by_cases hb : x.testBit i
    · rw [if_pos hb] at hl
      cases hl
      exact ⟨le_refl _, by omega, hb, fun j h1 h2 => by omega⟩
    · rw [if_neg hb] at hl
      obtain ⟨h1, h2, h3, h4⟩ := ih hl
      refine ⟨by omega, by omega, h3, fun j hj1 hj2 => ?_⟩
      rcases Nat.lt_or_ge j (i + 1) with hj | hj
      · have : j = i := by omega
        subst this
        simpa using hb
      · exact h4 j hj hj2

theorem lsbf_none {x : Nat} : ∀ {f i : Nat}, lowestSetBitFrom x f i = none →
    ∀ j, i ≤ j → j < i + f → x.testBit j = false := by
  intro f
  induction f with
  | zero => intro i _ j h1 h2; omega
  | succ k ih =>
    intro i hh j h1 h2
    unfold lowestSetBitFrom at hh
    by_cases hb : x.testBit i
    · rw [if_pos hb] at hh; cases hh
    · rw [if_neg hb] at hh
      rcases Nat.lt_or_ge j (i + 1) with hj | hj
      · have : j = i := by omega
        subst this
        simpa using hb
      · exact ih hh j hj (by omega)

theorem existsSetBit {x : Nat} (hx : x ≠ 0) : ∃ i, x.testBit i = true := by
  by_contra hall
  push_neg at hall
  exact hx (Nat.eq_of_testBit_eq fun i => by
    rw [Nat.zero_testBit]
    exact Bool.not_eq_true _ ▸ (by simpa using hall i))

theorem hsbb_total {x : Nat} (hx : x ≠ 0) (hlt : x < 2 ^ 1024) :
    ∃ h, highestSetBitBelow x 1024 = some h := by
  cases hh : highestSetBitBelow x 1024 with
  | some h => exact ⟨h, rfl⟩
  | none =>
    exfalso
    obtain ⟨i, hi⟩ := existsSetBit hx
    rcases Nat.lt_or_ge i 1024 with hc | hc
    · rw [hsbb_none hh i hc] at hi; cases hi
    · rw [Nat.testBit_lt_two_pow (lt_of_lt_of_le hlt (Nat.pow_le_pow_right (by omega) hc))]
        at hi
      cases hi

theorem lsbf_total {x : Nat} (hx : x ≠ 0) (hlt : x < 2 ^ 1024) :
    ∃ l, lowestSetBitFrom x 1024 0 = some l := by
  cases hh : lowestSetBitFrom x 1024 0 with
  | some l => exact ⟨l, rfl⟩
  | none =>
    exfalso
    obtain ⟨i, hi⟩ := existsSetBit hx
    rcases Nat.lt_or_ge i 1024 with hc | hc
    · rw [lsbf_none hh i (by omega) (by omega)] at hi; cases hi
    · rw [Nat.testBit_lt_two_pow (lt_of_lt_of_le hlt (Nat.pow_le_pow_right (by omega) hc))]
        at hi
      cases hi

theorem shlStructure (x s : Nat) (hs : s ≤ 1024) :
    (x * 2 ^ s) % 2 ^ 1024 = (x % 2 ^ (1024 - s)) * 2 ^ s := by
  conv_lhs => rw [show (2 : Nat) ^ 1024 = 2 ^ (1024 - s) * 2 ^ s by
    rw [← pow_add]; congr 1; omega]
  rw [Nat.mul_mod_mul_right]

theorem testBitMulPow (m s j : Nat) :
    (m * 2 ^ s).testBit j = (decide (j ≥ s) && m.testBit (j - s)) := by
  rw [← Nat.shiftLeft_eq]
  exact Nat.testBit_shiftLeft m

theorem bitPosOf_mul (q M : Int) (hM : 0 < M) :
    bitPosOf (q * M) M = (q + 512).natAbs := by
  unfold bitPosOf
  rw [if_neg (by rw [Int.mul_tmod_left]; simp)]
  rw [Int.mul_tdiv_cancel _ (ne_of_gt hM)]

theorem downSearch_spec (bitmap : Nat) (B : Nat) (M : Int)
    (hb : bitmap < 2 ^ 1024) (hB : B ≤ 1022) :
    (∀ s, downSearch bitmap B M = .ok (some s) →
      ∃ p : Nat, p ≤ B ∧ bitmap.testBit p = true ∧ s = ((p : Int) - 512) * M ∧
        ∀ q, p < q → q ≤ B → bitmap.testBit q = false) ∧
    (downSearch bitmap B M = .ok none → ∀ q, q ≤ B → bitmap.testBit q = false) ∧
    (∃ o, downSearch bitmap B M = .ok o) := by
  have hshift : 1024 - B - 1 = 1023 - B := by omega
  have hexp : 1024 - (1023 - B) = B + 1 := by omega
  have hoffset : shl1024 bitmap (1024 - B - 1) =
      (bitmap % 2 ^ (B + 1)) * 2 ^ (1023 - B) := by
    rw [hshift, shl1024, shlStructure bitmap (1023 - B) (by omega), hexp]
  set m : Nat := bitmap % 2 ^ (B + 1) with hmdef
  have hbitm : ∀ q, q ≤ B → m.testBit q = bitmap.testBit q := by
    intro q hq
    rw [hmdef, Nat.testBit_mod_two_pow]
    simp [Nat.lt_succ_of_le hq]
  by_cases hm : m = 0
  · have hnone : downSearch bitmap B M = .ok none := by
      unfold downSearch mostSignificantBit
      rw [hoffset, hm, Nat.zero_mul, if_pos rfl]
    refine ⟨fun s hx => ?_, fun _ q hq => ?_, ⟨none, hnone⟩⟩
    · rw [hnone] at hx; cases hx
    · rw [← hbitm q hq, hm, Nat.zero_testBit]
  · have hoffne : m * 2 ^ (1023 - B) ≠ 0 :=
      Nat.mul_ne_zero hm (Nat.pos_iff_ne_zero.mp (Nat.pos_pow_of_pos _ (by omega)))
    have hofflt : m * 2 ^ (1023 - B) < 2 ^ 1024 := by
      have h1 : m < 2 ^ (B + 1) := by
        rw [hmdef]
        exact Nat.mod_lt _ (Nat.pos_pow_of_pos _ (by omega))
      calc m * 2 ^ (1023 - B) < 2 ^ (B + 1) * 2 ^ (1023 - B) :=
            (Nat.mul_lt_mul_right (Nat.pos_pow_of_pos _ (by omega))).mpr h1
      _ = 2 ^ (B + 1 + (1023 - B)) := by rw [← pow_add]
      _ ≤ 2 ^ 1024 := Nat.pow_le_pow_right (by omega) (by omega)
    obtain ⟨h, hh⟩ := hsbb_total hoffne hofflt
    obtain ⟨hhlt, hhbit, hhmax⟩ := hsbb_some hh
    have hhge : 1023 - B ≤ h := by
      by_contra hcon
      rw [testBitMulPow] at hhbit
      simp only [ge_iff_le, Bool.and_eq_true, decide_eq_true_eq] at hhbit
      omega
    set p : Nat := h - (1023 - B) with hpdef
    have hbitp : m.testBit p = true := by
      rw [testBitMulPow] at hhbit
      simp only [ge_iff_le, Bool.and_eq_true, decide_eq_true_eq] at hhbit
      rw [hpdef]
      exact hhbit.2
    have hplt : p < B + 1 := by
      by_contra hcon
      rw [hmdef, Nat.testBit_mod_two_pow] at hbitp
      simp [hcon] at hbitp
    have hbitmapp : bitmap.testBit p = true := by
      rw [← hbitm p (by omega)]
      exact hbitp
    have hpmax : ∀ q, p < q → q ≤ B → bitmap.testBit q = false := by
      intro q hq1 hq2
      have hjh : h < q + (1023 - B) := by omega
      have := hhmax (q + (1023 - B)) hjh (by omega)
      rw [testBitMulPow] at this
      simp only [ge_iff_le, Nat.le_add_left, decide_True, Bool.true_and,
        Nat.add_sub_cancel] at this
      rw [← hbitm q hq2]
      exact this
    have hmsb : mostSignificantBit (m * 2 ^ (1023 - B)) = some (1023 - h) := by
      unfold mostSignificantBit leadingZeros1024
      rw [if_neg hoffne, hh]
    have hds : downSearch bitmap B M =
        .ok (some ((((B : Int) - ((1023 - h : Nat) : Int) - 512)) * M)) := by
      unfold downSearch
      rw [hoffset, hmsb]
    have hval : ((B : Int) - ((1023 - h : Nat) : Int) - 512) = (p : Int) - 512 := by
      have h1 : h ≤ 1023 := by omega
      have h2 : ((1023 - h : Nat) : Int) = 1023 - (h : Int) := by omega
      have h3 : (p : Int) = (h : Int) - (1023 - (B : Int)) := by
        rw [hpdef]
        push_cast [hhge]
        omega
      omega
    refine ⟨fun s hx => ?_, fun hx => ?_, ⟨_, hds⟩⟩
    · rw [hds] at hx
      simp only [Outcome.ok.injEq, Option.some.injEq] at hx
      refine ⟨p, by omega, hbitmapp, ?_, hpmax⟩
      rw [← hx, hval]
    · rw [hds] at hx
      cases hx

theorem upSearch_spec (bitmap : Nat) (B : Nat) (M : Int)
    (hb : bitmap < 2 ^ 1024) (hB : B ≤ 1023) :
    (∀ s, upSearch bitmap B M = .ok (some s) →
      ∃ p : Nat, B ≤ p ∧ p ≤ 1023 ∧ bitmap.testBit p = true ∧
        s = ((p : Int) - 512) * M ∧
        ∀ q, B ≤ q → q < p → bitmap.testBit q = false) ∧
    (upSearch bitmap B M = .ok none → ∀ q, B ≤ q → bitmap.testBit q = false) ∧
    (∃ o, upSearch bitmap B M = .ok o) := by
  set x : Nat := bitmap / 2 ^ B with hxdef
  have hbitx : ∀ i, x.testBit i = bitmap.testBit (B + i) := by
    intro i
    rw [hxdef, ← Nat.shiftRight_eq_div_pow]
    exact Nat.testBit_shiftRight bitmap
  have hhigh : ∀ q, 1023 < q → bitmap.testBit q = false := by
    intro q hq
    exact Nat.testBit_lt_two_pow (lt_of_lt_of_le hb (Nat.pow_le_pow_right (by omega) (by omega)))
  by_cases hx0 : x = 0
  · have hnone : upSearch bitmap B M = .ok none := by
      unfold upSearch leastSignificantBit
      rw [← hxdef, hx0, if_pos rfl]
    refine ⟨fun s hx => ?_, fun _ q hq => ?_, ⟨none, hnone⟩⟩
    · rw [hnone] at hx; cases hx
    · have := hbitx (q - B)
      rw [hx0, Nat.zero_testBit] at this
      have hqe : B + (q - B) = q := by omega
      rw [hqe] at this
      exact this.symm
  · have hxlt : x < 2 ^ 1024 := by
      calc x ≤ bitmap := by rw [hxdef]; exact Nat.div_le_self _ _
      _ < 2 ^ 1024 := hb
    obtain ⟨l, hl⟩ := lsbf_total hx0 hxlt
    obtain ⟨hl0, hllt, hlbit, hlmin⟩ := lsbf_some hl
    have hbitl : bitmap.testBit (B + l) = true := by
      rw [← hbitx]
      exact hlbit
    have hBl : B + l ≤ 1023 := by
      by_contra hcon
      rw [hhigh (B + l) (by omega)] at hbitl
      cases hbitl
    have hlsb : leastSignificantBit x = some l := by
      unfold leastSignificantBit trailingZeros1024
      rw [if_neg hx0, hl]
    have hus : upSearch bitmap B M =
        .ok (some ((((B : Int) + ((l : Nat) : Int) - 512)) * M)) := by
      unfold upSearch
      rw [← hxdef, hlsb]
    refine ⟨fun s hx => ?_, fun hx => ?_, ⟨_, hus⟩⟩
    · rw [hus] at hx
      simp only [Outcome.ok.injEq, Option.some.injEq] at hx
      refine ⟨B + l, by omega, hBl, hbitl, ?_, ?_⟩
      · rw [← hx]
        push_cast
        ring_nf
      · intro q hq1 hq2
        have := hlmin (q - B) (by omega) (by omega)
        rw [hbitx] at this
        have hqe : B + (q - B) = q := by omega
        rw [hqe] at this
        exact this
    · rw [hus] at hx
      cases hx

theorem nextStartDown (bitmap : Nat) (spacing k : Int)
    (hb : bitmap < 2 ^ 1024) (hs : 0 < spacing) (hk1 : -512 ≤ k) (hk2 : k ≤ 511) :
    (∀ s, nextInitializedTickArrayStartIndex bitmap (k * (spacing * TICK_ARRAY_SIZE))
        spacing true = .ok (some s) →
      ∃ j : Int, -512 ≤ j ∧ j ≤ 511 ∧ s = j * (spacing * TICK_ARRAY_SIZE) ∧
        bitmap.testBit (j + 512).toNat = true ∧ j < k ∧
        ∀ j' : Int, -512 ≤ j' → j' ≤ 511 → bitmap.testBit (j' + 512).toNat = true →
          j' < k → j' ≤ j) ∧
    (nextInitializedTickArrayStartIndex bitmap (k * (spacing * TICK_ARRAY_SIZE))
        spacing true = .ok none →
      ∀ j' : Int, -512 ≤ j' → j' ≤ 511 → bitmap.testBit (j' + 512).toNat = true →
        ¬ (j' < k)) ∧
    (∃ o, nextInitializedTickArrayStartIndex bitmap (k * (spacing * TICK_ARRAY_SIZE))
        spacing true = .ok o) := by
  have hM : (0 : Int) < spacing * TICK_ARRAY_SIZE := mul_pos hs (by decide)
  have hnv : ¬ ¬ (checkIsValidStartIndex (k * (spacing * TICK_ARRAY_SIZE)) spacing = true) := by
    simp [checkIsValidStartIndex, Int.mul_tmod_left]
  unfold nextInitializedTickArrayStartIndex
  rw [if_neg hnv, if_pos (rfl : (true : Bool) = true)]
  set M : Int := spacing * TICK_ARRAY_SIZE with hMdef
  have hnext : k * M - M = (k - 1) * M := by ring
  have hbound : maxTickInTickarrayBitmap spacing = M * 512 := by
    rw [hMdef]
    unfold maxTickInTickarrayBitmap
    ring
  rw [hnext, hbound]
  by_cases hklo : k = -512
  · subst hklo
    have hcond : ((-512 : Int) - 1) * M < -(M * 512) ∨ ((-512 : Int) - 1) * M ≥ M * 512 := by
      left
      have h1 : ((-513 : Int)) * M < (-512) * M := (mul_lt_mul_right hM).mpr (by omega)
      calc ((-512 : Int) - 1) * M = (-513) * M := by ring
      _ < (-512) * M := h1
      _ = -(M * 512) := by ring
    rw [if_pos hcond]
    exact ⟨(fun s hx => by cases hx), (fun _ j' hj1 hj2 hbit hlt => by omega), ⟨none, rfl⟩⟩
  · have hcond : ¬ (((k : Int) - 1) * M < -(M * 512) ∨ ((k : Int) - 1) * M ≥ M * 512) := by
      push_neg
      constructor
      · have h1 : ((-512 : Int)) * M ≤ (k - 1) * M := (mul_le_mul_right hM).mpr (by omega)
        calc -(M * 512) = ((-512 : Int)) * M := by ring
        _ ≤ (k - 1) * M := h1
      · have h1 : ((k : Int) - 1) * M < 512 * M := (mul_lt_mul_right hM).mpr (by omega)
        calc ((k : Int) - 1) * M < 512 * M := h1
        _ = M * 512 := by ring
    rw [if_neg hcond, bitPosOf_mul (k - 1) M hM]
    set B : Nat := (k - 1 + 512).natAbs with hBdef
    have hBcast : (B : Int) = k + 511 := by
      rw [hBdef, Int.natAbs_of_nonneg (by omega : (0 : Int) ≤ k - 1 + 512)]
      ring
    have hBle : B ≤ 1022 := by omega
    obtain ⟨hsome, hnone, htot⟩ := downSearch_spec bitmap B M hb hBle
    refine ⟨fun s hx => ?_, fun hx j' hj1 hj2 hbit hlt => ?_, htot⟩
    · obtain ⟨p, hpB, hpbit, hsval, hpmax⟩ := hsome s hx
      refine ⟨(p : Int) - 512, by omega, by omega, hsval, ?_, by omega, ?_⟩
      · have : ((p : Int) - 512 + 512).toNat = p := by omega
        rw [this]
        exact hpbit
      · intro j' hj1 hj2 hbit hlt
        have hple : (j' + 512).toNat ≤ B := by omega
        by_contra hcon
        push_neg at hcon
        have hplt : p < (j' + 512).toNat := by omega
        rw [hpmax _ hplt hple] at hbit
        cases hbit
    · have hple : (j' + 512).toNat ≤ B := by omega
      rw [hnone hx _ hple] at hbit
      cases hbit

theorem nextStartUp (bitmap : Nat) (spacing k : Int)
    (hb : bitmap < 2 ^ 1024) (hs : 0 < spacing) (hk1 : -512 ≤ k) (hk2 : k ≤ 511) :
    (∀ s, nextInitializedTickArrayStartIndex bitmap (k * (spacing * TICK_ARRAY_SIZE))
        spacing false = .ok (some s) →
      ∃ j : Int, -512 ≤ j ∧ j ≤ 511 ∧ s = j * (spacing * TICK_ARRAY_SIZE) ∧
        bitmap.testBit (j + 512).toNat = true ∧ k < j ∧
        ∀ j' : Int, -512 ≤ j' → j' ≤ 511 → bitmap.testBit (j' + 512).toNat = true →
          k < j' → j ≤ j') ∧
    (nextInitializedTickArrayStartIndex bitmap (k * (spacing * TICK_ARRAY_SIZE))
        spacing false = .ok none →
      ∀ j' : Int, -512 ≤ j' → j' ≤ 511 → bitmap.testBit (j' + 512).toNat = true →
        ¬ (k < j')) ∧
    (∃ o, nextInitializedTickArrayStartIndex bitmap (k * (spacing * TICK_ARRAY_SIZE))
        spacing false = .ok o) := by
  have hM : (0 : Int) < spacing * TICK_ARRAY_SIZE := mul_pos hs (by decide)
  have hnv : ¬ ¬ (checkIsValidStartIndex (k * (spacing * TICK_ARRAY_SIZE)) spacing = true) := by
    simp [checkIsValidStartIndex, Int.mul_tmod_left]
  unfold nextInitializedTickArrayStartIndex
  rw [if_neg hnv, if_neg (by decide : ¬ ((false : Bool) = true))]
  set M : Int := spacing * TICK_ARRAY_SIZE with hMdef
  have hnext : k * M + M = (k + 1) * M := by ring
  have hbound : maxTickInTickarrayBitmap spacing = M * 512 := by
    rw [hMdef]
    unfold maxTickInTickarrayBitmap
    ring
  rw [hnext, hbound]
  by_cases hkhi : k = 511
  · subst hkhi
    have hcond : (((511 : Int) + 1) * M < -(M * 512) ∨ ((511 : Int) + 1) * M ≥ M * 512) := by
      right
      calc M * 512 = (512 : Int) * M := by ring
      _ ≤ (511 + 1) * M := by norm_num
    rw [if_pos hcond]
    exact ⟨(fun s hx => by cases hx), (fun _ j' hj1 hj2 hbit hlt => by omega), ⟨none, rfl⟩⟩
  · have hcond : ¬ (((k : Int) + 1) * M < -(M * 512) ∨ ((k : Int) + 1) * M ≥ M * 512) := by
      push_neg
      constructor
      · have h1 : ((-512 : Int)) * M ≤ (k + 1) * M := (mul_le_mul_right hM).mpr (by omega)
        calc -(M * 512) = ((-512 : Int)) * M := by ring
        _ ≤ (k + 1) * M := h1
      · have h1 : ((k : Int) + 1) * M < 512 * M := (mul_lt_mul_right hM).mpr (by omega)
        calc ((k : Int) + 1) * M < 512 * M := h1
        _ = M * 512 := by ring
    rw [if_neg hcond, bitPosOf_mul (k + 1) M hM]
    set B : Nat := (k + 1 + 512).natAbs with hBdef
    have hBcast : (B : Int) = k + 513 := by
      rw [hBdef, Int.natAbs_of_nonneg (by omega : (0 : Int) ≤ k + 1 + 512)]
      ring
    have hBle : B ≤ 1023 := by omega
    obtain ⟨hsome, hnone, htot⟩ := upSearch_spec bitmap B M hb hBle
    refine ⟨fun s hx => ?_, fun hx j' hj1 hj2 hbit hlt => ?_, htot⟩
    · obtain ⟨p, hpB, hp1023, hpbit, hsval, hpmin⟩ := hsome s hx
      refine ⟨(p : Int) - 512, by omega, by omega, hsval, ?_, by omega, ?_⟩
      · have : ((p : Int) - 512 + 512).toNat = p := by omega
        rw [this]
        exact hpbit
      · intro j' hj1 hj2 hbit hlt
        have hpge : B ≤ (j' + 512).toNat := by omega
        by_contra hcon
        push_neg at hcon
        have hplt : (j' + 512).toNat < p := by omega
        rw [hpmin _ hpge hplt] at hbit
        cases hbit
    · have hpge : B ≤ (j' + 512).toNat := by omega
      rw [hnone hx _ hpge] at hbit
      cases hbit

theorem crossInvolutionAux (t : TickState) (g0 g1 : Nat) (rw : Rewards)
    (h0 : t.feeGrowthOutside0X64 ≤ g0) (h1 : t.feeGrowthOutside1X64 ≤ g1)
    (hr0 : rw.r0.initialized = true → t.rewardOutside0 ≤ rw.r0.rewardGrowthGlobalX64)
    (hr1 : rw.r1.initialized = true → t.rewardOutside1 ≤ rw.r1.rewardGrowthGlobalX64)
    (hr2 : rw.r2.initialized = true → t.rewardOutside2 ≤ rw.r2.rewardGrowthGlobalX64) :
    ∃ t1, t.cross g0 g1 rw = .ok (t1, t.liquidityNet) ∧
      t1.liquidityNet = t.liquidityNet ∧ t1.liquidityGross = t.liquidityGross ∧
      t1.cross g0 g1 rw = .ok (t, t.liquidityNet) := by
  obtain ⟨tk, ln, lg, f0, f1, w0, w1, w2⟩ := t
  simp only at h0 h1 hr0 hr1 hr2
  refine ⟨⟨tk, ln, lg, g0 - f0, g1 - f1,
    (if rw.r0.initialized then rw.r0.rewardGrowthGlobalX64 - w0 else w0),
    (if rw.r1.initialized then rw.r1.rewardGrowthGlobalX64 - w1 else w1),
    (if rw.r2.initialized then rw.r2.rewardGrowthGlobalX64 - w2 else w2)⟩, ?_, rfl, rfl, ?_⟩
  · unfold TickState.cross crossReward checkedSub unwrapO
    simp only [if_pos h0, if_pos h1, ok_bind]
    by_cases i0 : rw.r0.initialized <;> by_cases i1 : rw.r1.initialized <;>
      by_cases i2 : rw.r2.initialized <;>
      simp [i0, i1, i2, if_pos (hr0 _), if_pos (hr1 _), if_pos (hr2 _), hr0, hr1, hr2, ok_bind]
  · unfold TickState.cross crossReward checkedSub unwrapO
    simp only [if_pos (Nat.sub_le g0 f0), if_pos (Nat.sub_le g1 f1), ok_bind,
      Nat.sub_sub_self h0, Nat.sub_sub_self h1]
    by_cases i0 : rw.r0.initialized <;> by_cases i1 : rw.r1.initialized <;>
      by_cases i2 : rw.r2.initialized <;>
      simp [i0, i1, i2, Nat.sub_le, Nat.sub_sub_self, hr0, hr1, hr2, ok_bind]

theorem min_sqrt_price_matches : MIN_SQRT_PRICE_X64 = sqrtPriceX64AtTick MIN_TICK := by rfl

theorem max_sqrt_price_matches : MAX_SQRT_PRICE_X64 = sqrtPriceX64AtTick MAX_TICK := by rfl

/-- C1: the claim states the per-position owed-fee delta is
`⌊wrapping_sub(new, last) · liquidity / 2^64⌋` for all snapshot pairs.
Counterexample: at `last = 2`, `new = 1`, `liquidity = 1` the code credits
`0` (saturating difference), while the claimed wrapping formula yields
`2^64 - 1`. -/
theorem c1_counterexample :
    calculateLatestTokenFees 0 2 1 1 = .ok 0 ∧
    wrappingSub 1 2 * 1 / Q64 = 2 ^ 64 - 1 ∧ (0 : Nat) ≠ 2 ^ 64 - 1 := by
  refine ⟨by rfl, by decide, by decide⟩

/-- C1 (amended): the owed-fee delta credited by
`calculate_latest_token_fees` (used verbatim by increase_liquidity, and
inlined identically for both sides in decrease_liquidity) equals
`⌊saturating_sub(new, last) · liquidity / 2^64⌋`: the snapshot
difference clamps to zero when the new inside snapshot is below the last
one.  In Lean, `Nat` subtraction is exactly `saturating_sub`. -/
theorem c1_amended_saturating_fee_delta (lastTotal lastG newG liquidity : Nat)
    (hfit : (newG - lastG) * liquidity / Q64 < U64MOD)
    (hadd : lastTotal + (newG - lastG) * liquidity / Q64 < U64MOD) :
    calculateLatestTokenFees lastTotal lastG newG liquidity =
      .ok (lastTotal + (newG - lastG) * liquidity / Q64) := by
  have hq : ¬ ((Q64 : Nat) = 0) := by decide
  have h128 : (newG - lastG) * liquidity / Q64 < U128MOD :=
    lt_trans hfit (by decide)
  simp only [calculateLatestTokenFees, mulDivFloorU128, asU64, checkedAddU64, unwrapO,
    if_neg hq, if_pos h128, if_pos hfit, if_pos hadd, ok_bind]

theorem c1_amended_saturating_fee_delta_witness :
    calculateLatestTokenFees 7 3 10 Q64 = .ok (7 + (10 - 3) * Q64 / Q64) :=
  c1_amended_saturating_fee_delta 7 3 10 Q64 (by decide) (by decide)

/-- C2: after a successful `decrease_liquidity` settlement the personal
position's `token_fees_owed_0` is zero (the source assigns it twice)
while `token_fees_owed_1` keeps its freshly accumulated value, yet both
captured owed values are part of the transferred amounts. -/
theorem c2_decrease_zeroes_only_token0 (p : PersonalPosition) (g0 g1 : Nat)
    (rg : Nat × Nat × Nat) (d0 d1 liq : Nat) (p' : PersonalPosition)
    (t0 t1 c0 c1 : Nat)
    (h0 : calculateLatestTokenFees p.tokenFeesOwed0 p.feeGrowthInside0LastX64 g0 p.liquidity
      = .ok c0)
    (h1 : calculateLatestTokenFees p.tokenFeesOwed1 p.feeGrowthInside1LastX64 g1 p.liquidity
      = .ok c1)
    (h : decreaseLiquiditySettle p g0 g1 rg d0 d1 liq = .ok (p', t0, t1)) :
    p'.tokenFeesOwed0 = 0 ∧ p'.tokenFeesOwed1 = c1 ∧ t0 = d0 + c0 ∧ t1 = d1 + c1 := by
  unfold decreaseLiquiditySettle at h
  rw [h0, ok_bind, h1, ok_bind] at h
  obtain ⟨r0, hr0, h⟩ := bind_eq_ok h
  obtain ⟨r0a, r0b⟩ := r0
  obtain ⟨r1, hr1, h⟩ := bind_eq_ok h
  obtain ⟨r1a, r1b⟩ := r1
  obtain ⟨r2, hr2, h⟩ := bind_eq_ok h
  obtain ⟨r2a, r2b⟩ := r2
  obtain ⟨lq, hlq, h⟩ := bind_eq_ok h
  obtain ⟨ta0, hta0, h⟩ := bind_eq_ok h
  obtain ⟨ta1, hta1, h⟩ := bind_eq_ok h
  simp only [Outcome.ok.injEq, Prod.mk.injEq] at h
  obtain ⟨hp, ht0, ht1⟩ := h
  unfold checkedAddU64 at hta0 hta1
  split at hta0
  · split at hta1
    · simp only [Outcome.ok.injEq] at hta0 hta1
      subst hp ht0 ht1
      refine ⟨rfl, rfl, hta0.symm, hta1.symm⟩
    · cases hta1
  · cases hta0

theorem c2_decrease_zeroes_only_token0_witness :
    (⟨6, 5 + Q64, 5 + 2 * Q64, 0, 22, 0, 0, 0, 0, 0, 0⟩ :
      PersonalPosition).tokenFeesOwed0 = 0 ∧
    (⟨6, 5 + Q64, 5 + 2 * Q64, 0, 22, 0, 0, 0, 0, 0, 0⟩ :
      PersonalPosition).tokenFeesOwed1 = 22 ∧
    (111 : Nat) = 100 + 11 ∧ (222 : Nat) = 200 + 22 :=
  c2_decrease_zeroes_only_token0 scnPersonal (5 + Q64) (5 + 2 * Q64) (0, 0, 0) 100 200 4
    ⟨6, 5 + Q64, 5 + 2 * Q64, 0, 22, 0, 0, 0, 0, 0, 0⟩ 111 222 11 22
    (by rfl) (by rfl) (by rfl)

/-- C3: the claim states `get_fee_growth_inside` and
`get_reward_growths_inside` are total (never trap), with every
subtraction wrapping.  Counterexample: with `tick_current` below the
lower tick and a stored outside value `5` above the global accumulator
`3`, the checked subtraction in the below-branch panics. -/
theorem c3_counterexample :
    getFeeGrowthInside ⟨1, 0, 0, 5, 5, 5, 0, 0⟩ ⟨10, 0, 0, 0, 0, 0, 0, 0⟩ 0 3 3 = .trap ∧
    getRewardGrowthsInside ⟨1, 0, 0, 5, 5, 5, 0, 0⟩ ⟨10, 0, 0, 0, 0, 0, 0, 0⟩ 0
      ⟨⟨1, 0, 0, 0, 0, 0, 3⟩, RewardInfo.default, RewardInfo.default⟩ = .trap := by
  refine ⟨by rfl, by rfl⟩

/-- C3 (amended): the below/above branches of `get_fee_growth_inside` and
`get_reward_growths_inside` use checked subtraction and panic when a
stored outside value exceeds the matching accumulator; whenever every
outside value is bounded by its accumulator, both functions succeed and
only the final combination is computed with wrapping subtraction. -/
theorem c3_amended_growth_inside_checked (tl tu : TickState) (tc : Int) (g0 g1 : Nat)
    (rw : Rewards)
    (hl0 : tl.feeGrowthOutside0X64 ≤ g0) (hl1 : tl.feeGrowthOutside1X64 ≤ g1)
    (hu0 : tu.feeGrowthOutside0X64 ≤ g0) (hu1 : tu.feeGrowthOutside1X64 ≤ g1)
    (ha0 : rw.r0.initialized = true →
      tl.rewardOutside0 ≤ rw.r0.rewardGrowthGlobalX64 ∧
      tu.rewardOutside0 ≤ rw.r0.rewardGrowthGlobalX64)
    (ha1 : rw.r1.initialized = true →
      tl.rewardOutside1 ≤ rw.r1.rewardGrowthGlobalX64 ∧
      tu.rewardOutside1 ≤ rw.r1.rewardGrowthGlobalX64)
    (ha2 : rw.r2.initialized = true →
      tl.rewardOutside2 ≤ rw.r2.rewardGrowthGlobalX64 ∧
      tu.rewardOutside2 ≤ rw.r2.rewardGrowthGlobalX64) :
    getFeeGrowthInside tl tu tc g0 g1 = .ok
      (wrappingSub (wrappingSub g0
          (if tl.tick ≤ tc then tl.feeGrowthOutside0X64 else g0 - tl.feeGrowthOutside0X64))
          (if tc < tu.tick then tu.feeGrowthOutside0X64 else g0 - tu.feeGrowthOutside0X64),
       wrappingSub (wrappingSub g1
          (if tl.tick ≤ tc then tl.feeGrowthOutside1X64 else g1 - tl.feeGrowthOutside1X64))
          (if tc < tu.tick then tu.feeGrowthOutside1X64 else g1 - tu.feeGrowthOutside1X64)) ∧
    getRewardGrowthsInside tl tu tc rw = .ok
      ((if rw.r0.initialized then
          wrappingSub (wrappingSub rw.r0.rewardGrowthGlobalX64
            (if tl.tick ≤ tc then tl.rewardOutside0
             else rw.r0.rewardGrowthGlobalX64 - tl.rewardOutside0))
            (if tc < tu.tick then tu.rewardOutside0
             else rw.r0.rewardGrowthGlobalX64 - tu.rewardOutside0)
        else 0),
       (if rw.r1.initialized then
          wrappingSub (wrappingSub rw.r1.rewardGrowthGlobalX64
            (if tl.tick ≤ tc then tl.rewardOutside1
             else rw.r1.rewardGrowthGlobalX64 - tl.rewardOutside1))
            (if tc < tu.tick then tu.rewardOutside1
             else rw.r1.rewardGrowthGlobalX64 - tu.rewardOutside1)
        else 0),
       (if rw.r2.initialized then
          wrappingSub (wrappingSub rw.r2.rewardGrowthGlobalX64
            (if tl.tick ≤ tc then tl.rewardOutside2
             else rw.r2.rewardGrowthGlobalX64 - tl.rewardOutside2))
            (if tc < tu.tick then tu.rewardOutside2
             else rw.r2.rewardGrowthGlobalX64 - tu.rewardOutside2)
        else 0)) := by
  constructor
  · unfold getFeeGrowthInside checkedSub unwrapO
    by_cases hbl : tl.tick ≤ tc <;> by_cases habove : tc < tu.tick
    · simp [ge_iff_le, hbl, habove, ok_bind]
    · simp [ge_iff_le, hbl, habove, if_pos hu0, if_pos hu1, ok_bind]
    · simp [ge_iff_le, hbl, habove, if_pos hl0, if_pos hl1, ok_bind]
    · simp [ge_iff_le, hbl, habove, if_pos hl0, if_pos hl1, if_pos hu0, if_pos hu1, ok_bind]
  · unfold getRewardGrowthsInside rewardGrowthInsideOne checkedSub unwrapO
    by_cases i0 : rw.r0.initialized <;> by_cases i1 : rw.r1.initialized <;>
      by_cases i2 : rw.r2.initialized <;>
      by_cases hbl : tl.tick ≤ tc <;> by_cases habove : tc < tu.tick <;>
      simp [ge_iff_le, i0, i1, i2, hbl, habove, ok_bind,
        fun h => (ha0 h).1, fun h => (ha0 h).2,
        fun h => (ha1 h).1, fun h => (ha1 h).2,
        fun h => (ha2 h).1, fun h => (ha2 h).2]

theorem c3_amended_growth_inside_checked_witness :
    getFeeGrowthInside ⟨-10, 0, 0, 3, 4, 1, 0, 0⟩ ⟨10, 0, 0, 1, 2, 1, 0, 0⟩ 0 10 20 = .ok
      (wrappingSub (wrappingSub 10 (if (-10 : Int) ≤ 0 then 3 else 10 - 3))
          (if (0 : Int) < 10 then 1 else 10 - 1),
       wrappingSub (wrappingSub 20 (if (-10 : Int) ≤ 0 then 4 else 20 - 4))
          (if (0 : Int) < 10 then 2 else 20 - 2)) ∧
    getRewardGrowthsInside ⟨-10, 0, 0, 3, 4, 1, 0, 0⟩ ⟨10, 0, 0, 1, 2, 1, 0, 0⟩ 0
      scnCrossRewards = .ok
      ((if scnCrossRewards.r0.initialized then
          wrappingSub (wrappingSub scnCrossRewards.r0.rewardGrowthGlobalX64
            (if (-10 : Int) ≤ 0 then 1
             else scnCrossRewards.r0.rewardGrowthGlobalX64 - 1))
            (if (0 : Int) < 10 then 1
             else scnCrossRewards.r0.rewardGrowthGlobalX64 - 1)
        else 0),
       (if scnCrossRewards.r1.initialized then
          wrappingSub (wrappingSub scnCrossRewards.r1.rewardGrowthGlobalX64
            (if (-10 : Int) ≤ 0 then 0
             else scnCrossRewards.r1.rewardGrowthGlobalX64 - 0))
            (if (0 : Int) < 10 then 0
             else scnCrossRewards.r1.rewardGrowthGlobalX64 - 0)
        else 0),
       (if scnCrossRewards.r2.initialized then
          wrappingSub (wrappingSub scnCrossRewards.r2.rewardGrowthGlobalX64
            (if (-10 : Int) ≤ 0 then 0
             else scnCrossRewards.r2.rewardGrowthGlobalX64 - 0))
            (if (0 : Int) < 10 then 0
             else scnCrossRewards.r2.rewardGrowthGlobalX64 - 0)
        else 0)) :=
  c3_amended_growth_inside_checked ⟨-10, 0, 0, 3, 4, 1, 0, 0⟩ ⟨10, 0, 0, 1, 2, 1, 0, 0⟩
    0 10 20 scnCrossRewards (by decide) (by decide) (by decide) (by decide)
    (by decide) (by decide) (by decide)

/-- C4: the claim states that when the supplied tick-array deque is
exhausted mid-swap the program returns the typed error
`InsufficientTickArrays`.  Counterexample: the concrete run `c4Run`
(current array supplied, next array missing) panics — the code calls
`pop_front().unwrap()` on the empty deque — and a panic is not that
typed failure (no such error variant exists in this snapshot). -/
theorem c4_counterexample :
    c4Run = Outcome.trap ∧
    (Outcome.trap : Outcome SwapResult) ≠ .fail .insufficientTickArrays := by
  refine ⟨by rfl, by decide⟩

/-- C4 (amended): whenever `swap_internal` passes its entry checks with
an empty tick-array deque, it panics (the first `pop_front().unwrap()`),
never reporting a typed error. -/
theorem c4_amended_exhausted_deque_traps (cfg : AmmConfig) (pool : Pool)
    (obsPoolId amt lim : Nat) (zfo bi : Bool) (ts : Nat)
    (h1 : amt ≠ 0) (h2 : pool.getStatusByBit 0 = true)
    (h3 : if zfo then lim < pool.sqrtPriceX64 ∧ MIN_SQRT_PRICE_X64 < lim
          else pool.sqrtPriceX64 < lim ∧ lim < MAX_SQRT_PRICE_X64)
    (h4 : obsPoolId = pool.poolId) :
    swapInternal cfg pool [] obsPoolId amt lim zfo bi ts = .trap := by
  simp only [swapInternal, req_of (decide_eq_true h1), req_of h2,
    req_of (decide_eq_true h3), ok_bind, trap_bind]
  simp [req, h4, trap_bind, ok_bind]

theorem c4_amended_exhausted_deque_traps_witness :
    swapInternal scnConfig scnPool [] 1 5 3049500711113990606 true true 0 = .trap :=
  c4_amended_exhausted_deque_traps scnConfig scnPool 1 5 3049500711113990606 true true 0
    (by decide) (by rfl) (by decide) (by rfl)

/-- C5: one swap step charges `fee` on the input; the protocol part is
`⌊fee · protocol_fee_rate / 1_000_000⌋` and the fund part is
`⌊fee · fund_fee_rate / 1_000_000⌋` of the same raw fee; the remainder
goes to LP fee growth (scaled by `2^64 / liquidity`) only when the step
liquidity is positive, and the per-step accumulators advance
accordingly. -/
theorem c5_step_fee_split (fee pr fr liquidity g fa pa fu : Nat)
    (hfee : fee < U64MOD)
    (hrate : pr + fr ≤ FEE_DENOM)
    (hmul1 : fee * pr < U64MOD) (hmul2 : fee * fr < U64MOD)
    (hpa : pa + fee * pr / FEE_DENOM < U64MOD) (hfu : fu + fee * fr / FEE_DENOM < U64MOD)
    (hg : 0 < liquidity →
      g + (fee - fee * pr / FEE_DENOM - fee * fr / FEE_DENOM) * Q64 / liquidity < U128MOD)
    (hfa : 0 < liquidity →
      fa + (fee - fee * pr / FEE_DENOM - fee * fr / FEE_DENOM) < U64MOD) :
    applyStepFee fee pr fr liquidity g fa pa fu = .ok
      (fee - fee * pr / FEE_DENOM - fee * fr / FEE_DENOM,
       (if 0 < liquidity then
          g + (fee - fee * pr / FEE_DENOM - fee * fr / FEE_DENOM) * Q64 / liquidity
        else g),
       (if 0 < liquidity then fa + (fee - fee * pr / FEE_DENOM - fee * fr / FEE_DENOM)
        else fa),
       pa + fee * pr / FEE_DENOM,
       fu + fee * fr / FEE_DENOM) := by
  have hDpos : (0 : Nat) < FEE_DENOM := by decide
  have hpd : fee * pr / FEE_DENOM ≤ fee := by
    calc fee * pr / FEE_DENOM ≤ fee * FEE_DENOM / FEE_DENOM :=
          Nat.div_le_div_right (Nat.mul_le_mul_left fee (le_trans (Nat.le_add_right pr fr) hrate))
    _ = fee := Nat.mul_div_cancel fee hDpos
  have hsum : fee * pr / FEE_DENOM + fee * fr / FEE_DENOM ≤ fee := by
    calc fee * pr / FEE_DENOM + fee * fr / FEE_DENOM
        ≤ (fee * pr + fee * fr) / FEE_DENOM := divAddDivLe _ _ _ hDpos
    _ = fee * (pr + fr) / FEE_DENOM := by rw [Nat.mul_add]
    _ ≤ fee * FEE_DENOM / FEE_DENOM :=
          Nat.div_le_div_right (Nat.mul_le_mul_left fee hrate)
    _ = fee := Nat.mul_div_cancel fee hDpos
  have hfd : fee * fr / FEE_DENOM ≤ fee - fee * pr / FEE_DENOM := by omega
  have hfee2 : fee - fee * pr / FEE_DENOM - fee * fr / FEE_DENOM < U64MOD :=
    lt_of_le_of_lt (le_trans (Nat.sub_le _ _) (Nat.sub_le _ _)) hfee
  simp only [applyStepFee, protocolFeePart_eq fee pr pa hmul1 hpd hpa,
    fundFeePart_eq fee _ fr fu hmul2 hfd hfu,
    lpFeePart_eq _ liquidity g fa hfee2 hg hfa, ok_bind]

theorem c5_step_fee_split_witness :
    applyStepFee 1000 250000 250000 5 0 0 0 0 = .ok
      (1000 - 1000 * 250000 / FEE_DENOM - 1000 * 250000 / FEE_DENOM,
       (if 0 < 5 then
          0 + (1000 - 1000 * 250000 / FEE_DENOM - 1000 * 250000 / FEE_DENOM) * Q64 / 5
        else 0),
       (if 0 < 5 then 0 + (1000 - 1000 * 250000 / FEE_DENOM - 1000 * 250000 / FEE_DENOM)
        else 0),
       0 + 1000 * 250000 / FEE_DENOM,
       0 + 1000 * 250000 / FEE_DENOM) :=
  c5_step_fee_split 1000 250000 250000 5 0 0 0 0 (by decide) (by decide) (by decide)
    (by decide) (by decide) (by decide) (by decide) (by decide)

/-- C6: a successful `exact_internal` swap moves the pool price strictly
in the trade direction (down for zero-for-one, up otherwise) and
transfers non-zero amounts of both tokens; and whenever the inner swap
produces a zero amount on either side, `exact_internal` fails with
`TooSmallInputOrOutputAmount`. -/
theorem c6_swap_direction_and_nonzero_amounts (cfg : AmmConfig) (pool : Pool)
    (deque : List TickArrayState) (obsPoolId : Nat) (vaultsOk zfo : Bool)
    (inV outV amt lim : Nat) (bi : Bool) (ts : Nat) :
    (∀ r, exactInternal cfg pool deque obsPoolId vaultsOk zfo inV outV amt lim bi ts
        = .ok r →
      (zfo = true → r.pool.sqrtPriceX64 < pool.sqrtPriceX64) ∧
      (zfo = false → pool.sqrtPriceX64 < r.pool.sqrtPriceX64) ∧
      r.amount0 ≠ 0 ∧ r.amount1 ≠ 0) ∧
    (∀ s, swapInternal cfg pool deque obsPoolId amt
        (if lim = 0 then
          (if zfo then MIN_SQRT_PRICE_X64 + 1 else MAX_SQRT_PRICE_X64 - 1)
         else lim) zfo bi ts = .ok s →
      (s.amount0 = 0 ∨ s.amount1 = 0) → vaultsOk = true →
      exactInternal cfg pool deque obsPoolId vaultsOk zfo inV outV amt lim bi ts
        = .fail .tooSmallInputOrOutputAmount) := by
  constructor
  · intro r h
    unfold exactInternal at h
    obtain ⟨u, hu, h⟩ := bind_eq_ok h
    obtain ⟨s, hs, h⟩ := bind_eq_ok h
    obtain ⟨u2, hu2, h⟩ := bind_eq_ok h
    have hnz := req_ok hu2
    rw [decide_eq_true_eq] at hnz
    obtain ⟨vv, hvv, h⟩ := bind_eq_ok h
    obtain ⟨va, vb⟩ := vv
    obtain ⟨u3, hu3, h⟩ := bind_eq_ok h
    obtain ⟨ret, hret, h⟩ := bind_eq_ok h
    simp only [Outcome.ok.injEq] at h
    subst h
    have hdir := priceDirectionCheck_ok hu3
    exact ⟨hdir.1, hdir.2, hnz.1, hnz.2⟩
  · intro s hs hzero hv
    unfold exactInternal
    rw [hv]
    simp only [req_of (rfl : (true : Bool) = true), ok_bind, hs]
    have hdec : decide (s.amount0 ≠ 0 ∧ s.amount1 ≠ 0) = false := by
      rcases hzero with h | h <;> simp [h]
    simp [req, hdec, fail_bind]

theorem c6_swap_direction_and_nonzero_amounts_witness :
    c6Res.pool.sqrtPriceX64 < scnPool.sqrtPriceX64 ∧
    c6Res.amount0 ≠ 0 ∧ c6Res.amount1 ≠ 0 := by
  have h := (c6_swap_direction_and_nonzero_amounts scnConfig scnPool [scnArrayA, scnArrayB]
    1 true true 1000000000000000 1000000000000000 6000000000 3049500711113990606 true 0).1
    c6Res (by rfl)
  exact ⟨h.1 rfl, h.2.2.1, h.2.2.2⟩

/-- C7: the public `swap` enforces the `other_amount_threshold` after the
inner swap: for exact input (`is_base_input`) the returned output must be
at least the threshold, failing with `TooLittleOutputReceived` otherwise;
for exact output the paid input must be at most the threshold, failing
with `TooMuchInputPaid` otherwise. -/
theorem c7_threshold_enforcement (cfg : AmmConfig) (pool : Pool)
    (deque : List TickArrayState) (obsPoolId : Nat) (vaultsOk zfo : Bool)
    (inV outV amt thr lim : Nat) (bi : Bool) (ts : Nat) :
    (∀ r, swapOp cfg pool deque obsPoolId vaultsOk zfo inV outV amt thr lim bi ts
        = .ok r →
      (bi = true → thr ≤ r.returnedAmount) ∧ (bi = false → r.returnedAmount ≤ thr)) ∧
    (∀ r, exactInternal cfg pool deque obsPoolId vaultsOk zfo inV outV amt lim bi ts
        = .ok r →
      (bi = true → r.returnedAmount < thr →
        swapOp cfg pool deque obsPoolId vaultsOk zfo inV outV amt thr lim bi ts
          = .fail .tooLittleOutputReceived) ∧
      (bi = false → thr < r.returnedAmount →
        swapOp cfg pool deque obsPoolId vaultsOk zfo inV outV amt thr lim bi ts
          = .fail .tooMuchInputPaid)) := by
  constructor
  · intro r h
    unfold swapOp at h
    obtain ⟨r0, hr0, h⟩ := bind_eq_ok h
    cases bi
    · rw [if_neg (by decide : ¬ (false = true))] at h
      obtain ⟨u, hu, h⟩ := bind_eq_ok h
      have := req_ok hu
      rw [decide_eq_true_eq] at this
      simp only [Outcome.ok.injEq] at h
      subst h
      exact ⟨fun hc => Bool.noConfusion hc, fun _ => this⟩
    · rw [if_pos (by decide : (true = true))] at h
      obtain ⟨u, hu, h⟩ := bind_eq_ok h
      have := req_ok hu
      rw [decide_eq_true_eq] at this
      simp only [Outcome.ok.injEq] at h
      subst h
      exact ⟨fun _ => this, fun hc => Bool.noConfusion hc⟩
  · intro r h
    constructor
    · intro hb hlt
      subst hb
      unfold swapOp
      rw [h, ok_bind, if_pos (by decide : (true = true))]
      have : decide (thr ≤ r.returnedAmount) = false := by simpa using Nat.not_le.mpr hlt
      simp [req, this, fail_bind]
    · intro hb hlt
      subst hb
      unfold swapOp
      rw [h, ok_bind, if_neg (by decide : ¬ (false = true))]
      have : decide (r.returnedAmount ≤ thr) = false := by simpa using Nat.not_le.mpr hlt
      simp [req, this, fail_bind]

theorem c7_threshold_enforcement_witness :
    (200000000 : Nat) ≤ c7Res.returnedAmount := by
  have h := (c7_threshold_enforcement scnConfig scnPool [scnArrayA, scnArrayB]
    1 true true 1000000000000000 1000000000000000 6000000000 200000000
    3049500711113990606 true 0).1 c7Res (by rfl)
  exact h.1 rfl

/-- C8: the claim reproduces the repository's own swap test
(`zero_for_one_base_input_test`): from tick `-32395` the exact-input
zero-for-one swap of `12188240002` should end below tick `-32400` with a
lower price.  Model evaluation of the code instead ends at tick `-32313`
with the price RISEN to `3666835941624818158` and the liquidity
increased by the crossed tick's `liquidity_net` (`277065331032`): the
stale-array mismatch branch of `next_initialized_tick` returns the
previous array's `first_initialized_tick` instead of advancing, so the
loop crosses tick `-32400` upward.  The code contradicts its own test
vector. -/
theorem c8_scenario_divergence :
    swapSummary c8Run =
      some (-32313, 3666835941624818158, 5401230452251, 12188240002, 119030343919) ∧
    (5401230452251 : Nat) = 5124165121219 + 277065331032 ∧
    (3651942632306380802 : Nat) < 3666835941624818158 ∧
    ¬ ((-32313 : Int) < -32400) := by
  refine ⟨by rfl, by decide, by decide, by decide⟩

/-- C9: `next_initialized_tick_array_start_index` is a correct bitmap
search: it always succeeds on in-range inputs; a `some s` answer is an
initialized array start strictly on the search side of the current
start (below for zero-for-one, above otherwise) and extremal among all
initialized starts on that side; a `none` answer means no initialized
start exists on that side. -/
theorem c9_next_initialized_start_correct (bitmap : Nat) (spacing k : Int) (zfo : Bool)
    (hb : bitmap < 2 ^ 1024) (hs : 0 < spacing) (hk1 : -512 ≤ k) (hk2 : k ≤ 511) :
    (∃ o, nextInitializedTickArrayStartIndex bitmap (k * (spacing * TICK_ARRAY_SIZE))
        spacing zfo = .ok o) ∧
    (∀ s, nextInitializedTickArrayStartIndex bitmap (k * (spacing * TICK_ARRAY_SIZE))
        spacing zfo = .ok (some s) →
      ∃ j : Int, -512 ≤ j ∧ j ≤ 511 ∧ s = j * (spacing * TICK_ARRAY_SIZE) ∧
        bitmap.testBit (j + 512).toNat = true ∧
        (zfo = true → s < k * (spacing * TICK_ARRAY_SIZE) ∧
          ∀ j' : Int, -512 ≤ j' → j' ≤ 511 → bitmap.testBit (j' + 512).toNat = true →
            j' * (spacing * TICK_ARRAY_SIZE) < k * (spacing * TICK_ARRAY_SIZE) →
            j' * (spacing * TICK_ARRAY_SIZE) ≤ s) ∧
        (zfo = false → k * (spacing * TICK_ARRAY_SIZE) < s ∧
          ∀ j' : Int, -512 ≤ j' → j' ≤ 511 → bitmap.testBit (j' + 512).toNat = true →
            k * (spacing * TICK_ARRAY_SIZE) < j' * (spacing * TICK_ARRAY_SIZE) →
            s ≤ j' * (spacing * TICK_ARRAY_SIZE))) ∧
    (nextInitializedTickArrayStartIndex bitmap (k * (spacing * TICK_ARRAY_SIZE))
        spacing zfo = .ok none →
      ∀ j' : Int, -512 ≤ j' → j' ≤ 511 → bitmap.testBit (j' + 512).toNat = true →
        (zfo = true → ¬ (j' * (spacing * TICK_ARRAY_SIZE) < k * (spacing * TICK_ARRAY_SIZE))) ∧
        (zfo = false → ¬ (k * (spacing * TICK_ARRAY_SIZE) < j' * (spacing * TICK_ARRAY_SIZE)))) := by
  have hM : (0 : Int) < spacing * TICK_ARRAY_SIZE := mul_pos hs (by decide)
  cases zfo
  · obtain ⟨hsome, hnone, htot⟩ := nextStartUp bitmap spacing k hb hs hk1 hk2
    refine ⟨htot, fun s hx => ?_, fun hx j' hj1 hj2 hbit => ?_⟩
    · obtain ⟨j, h1, h2, h3, h4, h5, h6⟩ := hsome s hx
      refine ⟨j, h1, h2, h3, h4, (fun hc => Bool.noConfusion hc), fun _ => ⟨?_, ?_⟩⟩
      · rw [h3]
        exact (mul_lt_mul_right hM).mpr h5
      · intro j' hj1 hj2 hbit hlt
        rw [h3]
        exact (mul_le_mul_right hM).mpr
          (h6 j' hj1 hj2 hbit ((mul_lt_mul_right hM).mp hlt))
    · refine ⟨(fun hc => Bool.noConfusion hc), fun _ hlt => ?_⟩
      exact hnone hx j' hj1 hj2 hbit ((mul_lt_mul_right hM).mp hlt)
  · obtain ⟨hsome, hnone, htot⟩ := nextStartDown bitmap spacing k hb hs hk1 hk2
    refine ⟨htot, fun s hx => ?_, fun hx j' hj1 hj2 hbit => ?_⟩
    · obtain ⟨j, h1, h2, h3, h4, h5, h6⟩ := hsome s hx
      refine ⟨j, h1, h2, h3, h4, fun _ => ⟨?_, ?_⟩, (fun hc => Bool.noConfusion hc)⟩
      · rw [h3]
        exact (mul_lt_mul_right hM).mpr h5
      · intro j' hj1 hj2 hbit hlt
        rw [h3]
        exact (mul_le_mul_right hM).mpr
          (h6 j' hj1 hj2 hbit ((mul_lt_mul_right hM).mp hlt))
    · refine ⟨fun _ hlt => ?_, (fun hc => Bool.noConfusion hc)⟩
      exact hnone hx j' hj1 hj2 hbit ((mul_lt_mul_right hM).mp hlt)

theorem c9_next_initialized_start_correct_witness :
    nextInitializedTickArrayStartIndex (3 * powBin 2 502)
      ((-9) * (60 * TICK_ARRAY_SIZE)) 60 true = .ok (some (-36000)) ∧
    (-36000 : Int) < (-9) * (60 * TICK_ARRAY_SIZE) := by
  refine ⟨by rfl, ?_⟩
  have h := (c9_next_initialized_start_correct (3 * powBin 2 502) 60 (-9) true
    (by decide) (by decide) (by decide) (by decide)).2.1 (-36000) (by rfl)
  obtain ⟨j, h1, h2, h3, h4, h5, h6⟩ := h
  exact (h5 rfl).1

/-- C10: crossing an initialized tick returns the tick's `liquidity_net`
unchanged, flips only the outside accumulators, and crossing the updated
tick again (with the same global accumulators, all bounding their stored
outside values) restores the original tick state — i.e. `cross` is an
involution on the outside snapshots. -/
theorem c10_cross_involution (t : TickState) (g0 g1 : Nat) (rw : Rewards)
    (t1 : TickState) (n : Int)
    (h0 : t.feeGrowthOutside0X64 ≤ g0) (h1 : t.feeGrowthOutside1X64 ≤ g1)
    (hr0 : rw.r0.initialized = true → t.rewardOutside0 ≤ rw.r0.rewardGrowthGlobalX64)
    (hr1 : rw.r1.initialized = true → t.rewardOutside1 ≤ rw.r1.rewardGrowthGlobalX64)
    (hr2 : rw.r2.initialized = true → t.rewardOutside2 ≤ rw.r2.rewardGrowthGlobalX64)
    (hc : t.cross g0 g1 rw = .ok (t1, n)) :
    n = t.liquidityNet ∧ t1.liquidityNet = t.liquidityNet ∧
    t1.liquidityGross = t.liquidityGross ∧
    t1.cross g0 g1 rw = .ok (t, t.liquidityNet) := by
  obtain ⟨t1a, hcross, hln, hlg, hback⟩ := crossInvolutionAux t g0 g1 rw h0 h1 hr0 hr1 hr2
  rw [hc] at hcross
  simp only [Outcome.ok.injEq, Prod.mk.injEq] at hcross
  obtain ⟨ht, hn⟩ := hcross
  subst ht
  exact ⟨hn, hln, hlg, hback⟩

theorem c10_cross_involution_witness :
    (7 : Int) = scnCrossTick.liquidityNet ∧
    scnCrossedTick.liquidityNet = scnCrossTick.liquidityNet ∧
    scnCrossedTick.liquidityGross = scnCrossTick.liquidityGross ∧
    scnCrossedTick.cross 10 10 scnCrossRewards =
      .ok (scnCrossTick, scnCrossTick.liquidityNet) :=
  c10_cross_involution scnCrossTick 10 10 scnCrossRewards scnCrossedTick 7
    (by decide) (by decide) (by decide) (by decide) (by decide) (by rfl)

end Amm

